import Mathlib

/-!
# A verification of the Kaptive typing core

Shallow embedding of `kaptive/alignment.py`, `kaptive/assembly.py` and
`kaptive/typing.py`, together with theorems settling the specification
claims about them.  Python machine integers are modelled as `Int`, Python
`float` quantities as `ℚ` (all quantities handled by the claims are exact
decimals), fallible Python code as `Except PyErr`.
-/

namespace Kaptive

/-- The Python exception kinds raised by the embedded code (messages elided). -/
inductive PyErr where
  /-- `AlignmentError` from `kaptive/alignment.py` (the spec calls it `MalformedAlignment`). -/
  | alignmentError : PyErr
  /-- A built-in `ValueError` (e.g. tuple-unpacking failure, `int()` on a non-digit). -/
  | valueError : PyErr
  /-- A built-in `TypeError` (e.g. subscripting an object with no `__getitem__`). -/
  | typeError : PyErr
  /-- A built-in `ZeroDivisionError`. -/
  | zeroDivisionError : PyErr
  /-- A built-in `AttributeError` (`getattr` on a missing attribute). -/
  | attributeError : PyErr
  /-- `TypingResultError` from `kaptive/typing.py`. -/
  | typingResultError : PyErr
deriving DecidableEq

/-- A tag value of a PAF alignment: `int` for type `i`, `float` for type `f`,
otherwise the raw string. -/
inductive TagValue where
  | i : Int → TagValue
  | f : ℚ → TagValue
  | s : String → TagValue
deriving DecidableEq

/-- Split a character list at every occurrence of `c` (Python
`str.split(c)` on the underlying characters; always at least one part). -/
def splitCharList (c : Char) : List Char → List (List Char)
  | [] => [[]]
  | x :: xs =>
    match splitCharList c xs with
    | [] => [[]]
    | h :: t => if x = c then [] :: h :: t else (x :: h) :: t

/-- Python `str.split(c)` for a single-character separator. -/
def pySplitChar (s : String) (c : Char) : List String :=
  (splitCharList c s.data).map String.mk

/-- The numeric value of a non-empty all-digit character list, if any. -/
def digitsToNat? (l : List Char) : Option Nat :=
  if l ≠ [] ∧ l.all (·.isDigit) then
    some (l.foldl (fun n c => n * 10 + (c.toNat - '0'.toNat)) 0)
  else none

/-- Python `int(s)`: an optional sign followed by digits, or a `ValueError`. -/
def pyIntE (s : String) : Except PyErr Int :=
  match s.data with
  | '-' :: rest =>
    match digitsToNat? rest with
    | some n => .ok (-(n : Int))
    | none => .error .valueError
  | '+' :: rest =>
    match digitsToNat? rest with
    | some n => .ok (n : Int)
    | none => .error .valueError
  | l =>
    match digitsToNat? l with
    | some n => .ok (n : Int)
    | none => .error .valueError

/-- Python `float(s)` for plain decimal literals (optional sign, digits,
optional fractional part); anything else is a `ValueError`. -/
def pyFloatE (s : String) : Except PyErr ℚ :=
  let neg := s.data.headD ' ' = '-'
  let t := if neg then s.data.tail else s.data
  let signed : ℚ → Except PyErr ℚ := fun q => .ok (if neg then -q else q)
  match splitCharList '.' t with
  | [a] =>
    match digitsToNat? a with
    | some n => signed n
    | none => .error .valueError
  | [a, b] =>
    if a = [] ∧ b = [] then .error .valueError
    else
      match (if a = [] then some 0 else digitsToNat? a),
        (if b = [] then some 0 else digitsToNat? b) with
      | some x, some y => signed (x + (y : ℚ) / (10 : ℚ) ^ b.length)
      | _, _ => .error .valueError
  | _ => .error .valueError

/-- Python `dict` insertion `d[k] = v`: an existing key keeps its position and
gets the new value, a new key is appended. -/
def pyDictInsert {α : Type} (d : List (String × α)) (k : String) (v : α) : List (String × α) :=
  if d.any (fun p => p.1 = k) then d.map (fun p => if p.1 = k then (k, v) else p)
  else d ++ [(k, v)]

/-- Python `dict.get(k)`. -/
def pyDictGet {α : Type} (d : List (String × α)) (k : String) : Option α :=
  (d.find? (fun p => p.1 == k)).map (·.2)

/-- `str.split(c, 2)` for a single-character separator: split at the first
two occurrences only, the remainder (separators included) forming the last
part. -/
def pySplit2 (s : String) (c : Char) : List String :=
  let parts := splitCharList c s.data
  if parts.length ≤ 3 then parts.map String.mk
  else (parts.take 2 ++ [List.intercalate [c] (parts.drop 2)]).map String.mk

/-- Python tuple unpacking `x, y, z = s` where `s` is a string: succeeds with
the three characters exactly when `s` has length 3, otherwise `ValueError`. -/
def pyUnpack3 (s : String) : Except PyErr (Char × Char × Char) :=
  match s.data with
  | [x, y, z] => .ok (x, y, z)
  | _ => .error .valueError

/-- Python `str.splitlines()` restricted to `\n` terminators (the inputs the
reader receives are `\n`-separated PAF). -/
def pySplitlines (s : String) : List String :=
  if s = "" then []
  else
    let ps := pySplitChar s '\n'
    if ps.getLastD "" = "" then ps.dropLast else ps

/-- An alignment record (`Alignment.__init__`, src/kaptive/alignment.py). -/
structure Alignment where
  q : String
  q_len : Int
  q_st : Int
  q_en : Int
  strand : String
  ctg : String
  ctg_len : Int
  r_st : Int
  r_en : Int
  mlen : Int
  blen : Int
  mapq : Int
  tags : List (String × TagValue)
deriving DecidableEq

instance : Inhabited Alignment :=
  ⟨⟨"", 0, 0, 0, "unknown", "", 0, 0, 0, 0, 0, 0, []⟩⟩

/-- The tag dictionary comprehension of `Alignment.from_paf_line`:
`{x: int(z) if y == "i" else float(z) if y == "f" else z
   for tag in line[12:] for x, y, z in tag.split(":", 2)}`.
Note the inner `for` iterates over the *list returned by `split`* and unpacks
each piece (a string) into the three variables, so each piece must be exactly
three characters long; a normal tag such as `NM:i:5` splits into `["NM","i","5"]`
and the first piece `"NM"` fails to unpack, raising `ValueError`. -/
def parseTags (fields : List String) : Except PyErr (List (String × TagValue)) :=
  fields.foldlM
    (fun d tag =>
      (pySplit2 tag ':').foldlM
        (fun d piece => do
          let (x, y, z) ← pyUnpack3 piece
          let v ←
            if y = 'i' then TagValue.i <$> pyIntE (String.singleton z)
            else if y = 'f' then TagValue.f <$> pyFloatE (String.singleton z)
            else pure (TagValue.s (String.singleton z))
          pure (pyDictInsert d (String.singleton x) v))
        d)
    []

/-- `Alignment.from_paf_line` (src/kaptive/alignment.py lines 51-64): split on
tabs, raise `AlignmentError` when fewer than 12 columns, parse the standard
fields and the trailing tags.  The `or`-defaults of `__init__` replace an empty
`q`/`ctg` by `''` (the identity) and an empty `strand` by `"unknown"`. -/
def Alignment.from_paf_line (line : String) : Except PyErr Alignment :=
  let fields := pySplitChar line '\t'
  if fields.length < 12 then .error .alignmentError
  else do
    let q_len ← pyIntE (fields.getD 1 "")
    let q_st ← pyIntE (fields.getD 2 "")
    let q_en ← pyIntE (fields.getD 3 "")
    let ctg_len ← pyIntE (fields.getD 6 "")
    let r_st ← pyIntE (fields.getD 7 "")
    let r_en ← pyIntE (fields.getD 8 "")
    let mlen ← pyIntE (fields.getD 9 "")
    let blen ← pyIntE (fields.getD 10 "")
    let mapq ← pyIntE (fields.getD 11 "")
    let tags ← parseTags (fields.drop 12)
    let strand := fields.getD 4 ""
    .ok
      { q := fields.getD 0 "", q_len := q_len, q_st := q_st, q_en := q_en,
        strand := if strand = "" then "unknown" else strand,
        ctg := fields.getD 5 "", ctg_len := ctg_len, r_st := r_st, r_en := r_en,
        mlen := mlen, blen := blen, mapq := mapq, tags := tags }

/-- `iter_alns` (src/kaptive/alignment.py lines 83-93): parse each line,
skipping (with a warning) lines that raise `AlignmentError`; any other
exception escapes the generator and aborts the stream. -/
def iter_alns (data : String) : Except PyErr (List Alignment) :=
  (pySplitlines data).foldlM
    (fun acc line =>
      match Alignment.from_paf_line line with
      | .ok a => .ok (acc ++ [a])
      | .error .alignmentError => .ok acc
      | .error e => .error e)
    []

/-- Modelled from the spec: `range_overlap((a,b),(c,d)) = max(0, min(b,d) − max(a,c))`
(§4.B of the spec; the implementation lives in `kaptive/misc.py`, which is not
part of the sources).  `skip_sort=True` applies the formula to the pairs as
given. -/
def range_overlap (r1 r2 : Int × Int) : Int :=
  max 0 (min r1.2 r2.2 - max r1.1 r2.1)

/-- `cull` (src/kaptive/alignment.py lines 103-109): yield the alignments that
do not conflict with `keep`.  The division `range_overlap(...) / a.blen` has no
zero guard, so a same-contig candidate with `blen = 0` raises
`ZeroDivisionError`; the different-contig disjunct short-circuits before the
division. -/
def cull (keep : Alignment) : List Alignment → ℚ → Except PyErr (List Alignment)
  | [], _ => .ok []
  | a :: rest, overlap_fraction =>
    if a.ctg ≠ keep.ctg then (cull keep rest overlap_fraction).map (a :: ·)
    else if a.blen = 0 then .error .zeroDivisionError
    else if (range_overlap (a.r_st, a.r_en) (keep.r_st, keep.r_en) : ℚ) / (a.blen : ℚ) <
        overlap_fraction then
      (cull keep rest overlap_fraction).map (a :: ·)
    else cull keep rest overlap_fraction

/-- The per-candidate keep decision of `cull` as a predicate (defined only
when the division is defined, i.e. `blen ≠ 0` on the same contig). -/
def keepsPred (keep : Alignment) (overlap_fraction : ℚ) (a : Alignment) : Bool :=
  !(a.ctg == keep.ctg) ||
    decide ((range_overlap (a.r_st, a.r_en) (keep.r_st, keep.r_en) : ℚ) / (a.blen : ℚ) <
      overlap_fraction)

theorem cull_ok_length {keep : Alignment} {l : List Alignment} {frac : ℚ}
    {res : List Alignment} (h : cull keep l frac = .ok res) : res.length ≤ l.length := by
  induction l generalizing res with
  | nil => simp [cull] at h; simp [← h]
  | cons a rest ih =>
    simp only [cull] at h
    split at h
    · cases hrec : cull keep rest frac with
      | error e => rw [hrec] at h; simp [Except.map] at h
      | ok r' =>
        rw [hrec] at h
        simp [Except.map] at h
        subst h
        simpa using Nat.succ_le_succ (ih hrec)
    · split at h
      · simp at h
      · split at h
        · cases hrec : cull keep rest frac with
          | error e => rw [hrec] at h; simp [Except.map] at h
          | ok r' =>
            rw [hrec] at h
            simp [Except.map] at h
            subst h
            simpa using Nat.succ_le_succ (ih hrec)
        · exact Nat.le_succ_of_le (ih h)

/-- `Alignment.__getitem__` does not exist: subscripting an `Alignment` raises
`TypeError` (`__getattr__` is not consulted for the implicit special-method
lookup). -/
def Alignment.getitem (_ : Alignment) (_ : Int) : Except PyErr Alignment :=
  .error .typeError

/-- The sort key of `cull_all`: `lambda x: x[1].mlen`.  Since `x` is an
`Alignment` and `Alignment` has no `__getitem__`, evaluating the key raises
`TypeError`. -/
def cullAllSortKey (x : Alignment) : Except PyErr Int := do
  let y ← x.getitem 1
  pure y.mlen

/-- The greedy loop of `cull_all`: pop the first alignment, keep it, replace
the remainder by `cull(kept, remainder)`, repeat. -/
def cullAllLoop (frac : ℚ) : List Alignment → Except PyErr (List Alignment)
  | [] => .ok []
  | a :: rest =>
    match h : cull a rest frac with
    | .error e => .error e
    | .ok rest' =>
      have : rest'.length < rest.length + 1 := Nat.lt_succ_of_le (cull_ok_length h)
      (cullAllLoop frac rest').map (a :: ·)
termination_by l => l.length

/-- `cull_all` (src/kaptive/alignment.py lines 112-118).  `sorted` evaluates the
key `lambda x: x[1].mlen` on every element before comparing, so any non-empty
input raises `TypeError` ([cullAllSortKey]); only the empty input reaches the
greedy loop (whose input is then the trivially sorted empty list). -/
def cull_all (alignments : List Alignment) : Except PyErr (List Alignment) := do
  let _ ← alignments.mapM cullAllSortKey
  cullAllLoop (1 / 10) alignments

/-- A representative well-formed alignment. -/
def alnDemo : Alignment :=
  { q := "L1_1", q_len := 100, q_st := 0, q_en := 100, strand := "+", ctg := "ctg",
    ctg_len := 1000, r_st := 200, r_en := 300, mlen := 90, blen := 100, mapq := 60, tags := [] }

/-- C1: `cull_all` is claimed to return the greedy mlen-descending culled
subset; in fact its sort key `lambda x: x[1].mlen` subscripts an `Alignment`
(which is not subscriptable), so every non-empty input raises `TypeError`, and
only the empty input returns (the empty kept list). -/
theorem cull_all_crashes_on_any_nonempty_input :
    cull_all [alnDemo] = .error .typeError ∧ cull_all [] = .ok [] := by
  refine ⟨rfl, ?_⟩
  show (List.mapM cullAllSortKey [] : Except PyErr (List Int)) >>= (fun _ => cullAllLoop (1 / 10) []) = .ok []
  unfold cullAllLoop
  rfl

/-- A well-formed 12-column PAF line (no tag fields). -/
def pafLine12 : String := "L1_1\t100\t0\t100\t+\tctg\t1000\t200\t300\t90\t100\t60"

/-- `pafLine12` with one standard trailing tag field. -/
def pafLine13 : String := pafLine12 ++ "\tNM:i:5"

/-- C5: a PAF line with fewer than 12 fields raises `AlignmentError` and is
skipped by the streaming reader; but the claimed tag typing is wrong: the tag
comprehension unpacks each piece of `tag.split(":", 2)` into three characters,
so a standard tag field such as `NM:i:5` raises `ValueError` (the piece `"NM"`
has two characters, not three), which `iter_alns` does not catch — the stream
aborts instead of continuing. -/
theorem from_paf_line_tag_parsing_crashes :
    Alignment.from_paf_line pafLine12 = .ok alnDemo ∧
    Alignment.from_paf_line "only\tthree\tfields" = .error .alignmentError ∧
    Alignment.from_paf_line pafLine13 = .error .valueError ∧
    iter_alns ("only\tthree\tfields\n" ++ pafLine12 ++ "\n") = .ok [alnDemo] ∧
    iter_alns (pafLine12 ++ "\n" ++ pafLine13 ++ "\n" ++ pafLine12 ++ "\n") =
      .error .valueError := by
  refine ⟨?_, ?_, ?_, ?_, ?_⟩ <;> rfl

/-- C10: `cull` is total exactly on inputs whose same-contig candidates all
have `blen > 0`: under that precondition it returns the kept sub-list (the
division-by-zero branch is unreachable), while any same-contig candidate with
`blen = 0` makes it raise `ZeroDivisionError`. -/
theorem cull_total_iff_blen_pos (keep : Alignment) (l : List Alignment) (frac : ℚ) :
    ((∀ a ∈ l, a.ctg = keep.ctg → 0 < a.blen) →
      cull keep l frac = .ok (l.filter (keepsPred keep frac))) ∧
    (∀ a ∈ l, a.ctg = keep.ctg → a.blen = 0 →
      cull keep l frac = .error .zeroDivisionError) := by
  induction l with
  | nil => exact ⟨fun _ => rfl, by simp⟩
  | cons a rest ih =>
    constructor
    · intro h
      have hrest := ih.1 (fun b hb => h b (List.mem_cons_of_mem a hb))
      by_cases hctg : a.ctg = keep.ctg
      · have hpos : 0 < a.blen := h a (List.mem_cons_self a rest) hctg
        have hne : ¬ a.blen = 0 := by omega
        simp only [cull, hctg, hrest, keepsPred, List.filter_cons]
        by_cases hlt :
            (range_overlap (a.r_st, a.r_en) (keep.r_st, keep.r_en) : ℚ) / (a.blen : ℚ) < frac
        · simp [hctg, hne, hlt, Except.map]
        · simp [hctg, hne, hlt]
      · simp [cull, hctg, hrest, keepsPred, List.filter_cons, Except.map]
    · intro b hb hctg hzero
      rcases List.mem_cons.mp hb with hb | hb
      · subst hb
        simp [cull, hctg, hzero]
      · have hrest := ih.2 b hb hctg hzero
        simp only [cull]
        split
        · simp [hrest, Except.map]
        · split
          · rfl
          · split <;> simp [hrest, Except.map]

/-- A same-contig candidate overlapping `alnDemo` by less than a tenth of its
`blen`. -/
def alnFar : Alignment := { alnDemo with q := "L2_1", r_st := 400, r_en := 500 }

/-- A same-contig candidate with `blen = 0`. -/
def alnZeroBlen : Alignment := { alnDemo with q := "L3_1", blen := 0 }

/-- Witness for [cull_total_iff_blen_pos] at concrete inputs. -/
theorem cull_total_iff_blen_pos_witness :
    cull alnDemo [alnFar] (1 / 10) = .ok [alnFar] ∧
    cull alnDemo [alnZeroBlen] (1 / 10) = .error .zeroDivisionError := by
  constructor
  · have h := (cull_total_iff_blen_pos alnDemo [alnFar] (1 / 10)).1 (by decide)
    rw [h]
    norm_num [keepsPred, range_overlap, alnFar, alnDemo]
  · exact (cull_total_iff_blen_pos alnDemo [alnZeroBlen] (1 / 10)).2 alnZeroBlen
      (List.mem_singleton.mpr rfl) rfl rfl

/-- `np.mean` of the per-locus score vector. -/
def npMean (l : List ℚ) : ℚ := l.sum / l.length

/-- The square of `np.std(l)` (numpy's population variance, ddof = 0). -/
def npVariance (l : List ℚ) : ℚ := (l.map (fun s => (s - npMean l) ^ 2)).sum / l.length

/-- `np.argmax`: the first index attaining the maximum (0 on the empty
vector). -/
def npArgmax : List ℚ → Nat
  | [] => 0
  | a :: rest => if rest.all (fun b => b ≤ a) then 0 else npArgmax rest + 1

/-- The z-score vector `(scores - np.mean(scores)) / np.std(scores)` of the
typing pipeline (src/kaptive/assembly.py line 158).  `np.std scores` is the
real square root of [npVariance], which is zero exactly when the variance is
zero; in that case every numerator `s - mean` is also zero (all scores equal
the mean), so the unguarded IEEE division produces `0/0 = NaN` for every
entry, modelled as `none`; otherwise the entry is the finite real quotient. -/
noncomputable def zscores (scores : List ℚ) : List (Option ℝ) :=
  scores.map fun (s : ℚ) =>
    if npVariance scores = 0 then none
    else some (((s : ℝ) - (npMean scores : ℝ)) / Real.sqrt (npVariance scores : ℝ))

/-- The z-score stored on the `TypingResult`: `zscores[idx[best_match]]`,
where `best_match` is the locus selected by `np.argmax(scores)`
(src/kaptive/assembly.py lines 159-162). -/
noncomputable def storedZscore (scores : List ℚ) : Option ℝ :=
  (zscores scores).getD (npArgmax scores) none

/-- C4 counterexample: with two equal weighted scores the standard deviation
is zero, and the computed z-scores are `0/0 = NaN` (`none`) — not zero; the
z-score stored for the best-match locus is NaN as well. -/
theorem zscores_nan_on_zero_std_counterexample :
    zscores [1, 1] = [none, none] ∧ storedZscore [1, 1] = none ∧
      (none : Option ℝ) ≠ some 0 := by
  have h : npVariance [1, 1] = 0 := by norm_num [npVariance, npMean]
  have hz : zscores [1, 1] = [none, none] := by simp [zscores, h]
  refine ⟨hz, ?_, by simp⟩
  have ha : npArgmax [1, 1] = 0 := by norm_num [npArgmax]
  rw [storedZscore, hz, ha]
  rfl

/-- C4 amended: when the standard deviation of the final weighted per-locus
score vector is zero, the unguarded division `(scores - mean) / std` makes
every locus's z-score NaN (`0/0`, modelled `none`) — including the z-score
stored on the `TypingResult` for the best-match locus — rather than zero. -/
theorem zscores_all_nan_of_zero_std (scores : List ℚ) (h : npVariance scores = 0) :
    (∀ z ∈ zscores scores, z = none) ∧ storedZscore scores = none := by
  have hz : zscores scores = scores.map (fun _ => none) := by
    unfold zscores
    exact List.map_congr_left fun a _ => by rw [if_pos h]
  have hgetD : ∀ (l : List ℚ) (n : Nat),
      (l.map (fun _ => (none : Option ℝ))).getD n none = none := by
    intro l
    induction l with
    | nil => intro n; rfl
    | cons a t ih =>
      intro n
      cases n with
      | zero => rfl
      | succ m => exact ih m
  constructor
  · intro z hzz
    rw [hz] at hzz
    obtain ⟨a, -, ha⟩ := List.mem_map.mp hzz
    exact ha.symm
  · rw [storedZscore, hz]
    exact hgetD scores (npArgmax scores)

/-- Witness for [zscores_all_nan_of_zero_std] at a concrete score vector. -/
theorem zscores_all_nan_of_zero_std_witness : storedZscore [2, 2] = none :=
  (zscores_all_nan_of_zero_std [2, 2] (by norm_num [npVariance, npMean])).2

/-- Python `str.strip(chars)`: remove leading and trailing characters that
are members of `chars` — a character *set*, not a suffix. -/
def pyStrip (s chars : String) : String :=
  String.mk
    (((s.data.dropWhile (chars.data.contains ·)).reverse.dropWhile
      (chars.data.contains ·)).reverse)

/-- `str.rsplit('.', 1)[0]`: everything before the last `'.'`, or the whole
string when it has no `'.'`. -/
def pyRsplitDotHead (s : String) : String :=
  let rev := s.data.reverse
  if rev.contains '.' then String.mk ((rev.dropWhile (· ≠ '.')).tail.reverse) else s

/-- The assembly-name derivation of `Assembly.from_path`
(src/kaptive/assembly.py line 47): `path.name.strip('.gz').rsplit('.', 1)[0]`,
applied to the file-name component of the input path. -/
def assemblyName (fileName : String) : String :=
  pyRsplitDotHead (pyStrip fileName ".gz")

/-- The name derivation as the claim states it: remove one trailing `.gz`
suffix when present, then remove the final extension. -/
def assemblyNameSpec (fileName : String) : String :=
  pyRsplitDotHead
    (if ['.', 'g', 'z'].isSuffixOf fileName.data then
      String.mk (fileName.data.take (fileName.data.length - 3))
    else fileName)

/-- C9 counterexample: `strip('.gz')` removes characters of the set
`{'.', 'g', 'z'}` from both ends, not a suffix: for the file name
`genes.fasta` the code derives the name `enes`, whereas removing a trailing
`.gz` (absent here) and then the final extension would give `genes`. -/
theorem assembly_name_counterexample :
    assemblyName "genes.fasta" = "enes" ∧ assemblyNameSpec "genes.fasta" = "genes" ∧
      ("enes" : String) ≠ "genes" := by
  exact ⟨rfl, rfl, by decide⟩

/-- Membership in the character set of `'.gz'`, as the amended claim words
it. -/
def isDotGorZ (c : Char) : Bool := c == '.' || c == 'g' || c == 'z'

/-- C9 amended: the name is derived by removing leading and trailing
characters drawn from the set `{'.', 'g', 'z'}` from the file name and then
dropping everything from the last `'.'` on; on the claim's examples this
agrees with suffix-stripping — `sample.fasta.gz` and `sample.fasta` both
yield `sample`. -/
theorem assembly_name_strips_char_set :
    (∀ s : String, assemblyName s =
      pyRsplitDotHead
        (String.mk (((s.data.dropWhile isDotGorZ).reverse.dropWhile isDotGorZ).reverse))) ∧
    assemblyName "sample.fasta.gz" = "sample" ∧ assemblyName "sample.fasta" = "sample" := by
  refine ⟨fun s => ?_, rfl, rfl⟩
  have hc : (fun c => (".gz".data.contains c)) = isDotGorZ := by
    funext c
    show (['.', 'g', 'z'].contains c) = isDotGorZ c
    simp only [List.contains, List.elem, isDotGorZ]
    cases h1 : c == '.' <;> cases h2 : c == 'g' <;> cases h3 : c == 'z' <;> rfl
  rw [assemblyName, pyStrip, hc]

/-- A reference gene (`kaptive.database.Gene`).  Modelled from the spec where
fields live in `kaptive/database.py` (not under src/): `name`, `strand` on its
locus, and `length` — the nucleotide length returned by `len(gene)` (§3). -/
structure Gene where
  name : String
  strand : String
  length : Nat
deriving DecidableEq

instance : Inhabited Gene := ⟨⟨"", "+", 0⟩⟩

/-- A reference locus (`kaptive.database.Locus`), restricted to what the
typing code reads.  Modelled from the spec (§3), `kaptive/database.py` being
absent from src/: `name`, the ordered gene map, the phenotype catalogue
(gene-phenotype set × label, largest set first) and the fallback type
label. -/
structure Locus where
  name : String
  genes : List (String × Gene)
  phenotypes : List (List (String × String) × String)
  type_label : String
deriving DecidableEq

instance : Inhabited Locus := ⟨⟨"", [], [], ""⟩⟩

/-- The database accessors used by `TypingResult.from_dict`.  Modelled from
the spec (§3): `loci`, `genes` (all loci's genes) and `extra_genes`. -/
structure Database where
  loci : List (String × Locus)
  genes : List (String × Gene)
  extra_genes : List (String × Gene)
deriving DecidableEq

/-- A gene result (`GeneResult.__init__`, src/kaptive/typing.py).  The Python
object references `piece`, `neighbour_left` and `neighbour_right` are indices
into the owning result's stores; `partialFlag` is the `partial` attribute. -/
structure GeneResult where
  id : String
  gene : Gene
  start : Int
  end_ : Int
  strand : String
  dna_seq : String
  protein_seq : String
  partialFlag : Bool
  below_threshold : Bool
  phenotype : String
  gene_type : String
  percent_identity : ℚ
  percent_coverage : ℚ
  piece : Option Nat
  neighbour_left : Option Nat
  neighbour_right : Option Nat
deriving DecidableEq

instance : Inhabited GeneResult :=
  ⟨⟨"", default, 0, 0, "", "", "", false, false, "present", "", 0, 0, none, none, none⟩⟩

/-- A locus piece (`LocusPiece.__init__`, src/kaptive/typing.py); its three
gene lists hold indices into the owning result's gene store. -/
structure LocusPiece where
  id : String
  start : Int
  end_ : Int
  strand : String
  sequence_ : String
  expected_genes : List Nat
  unexpected_genes : List Nat
  extra_genes : List Nat
deriving DecidableEq

instance : Inhabited LocusPiece := ⟨⟨"", 0, 0, "unknown", "", [], [], []⟩⟩

/-- `LocusPiece.__repr__`: `f"{self.id}:{self.start}-{self.end}{self.strand}"`. -/
def LocusPiece.reprStr (p : LocusPiece) : String :=
  p.id ++ ":" ++ toString p.start ++ "-" ++ toString p.end_ ++ p.strand

/-- A typing result (`TypingResult.__init__`, src/kaptive/typing.py).  The
pieces and gene results are owned in the two stores and referenced by index;
`result_pieces` is the `self.pieces` list; the `_memo` fields are the cached
`_percent_identity`, `_percent_coverage`, `_phenotype`, `_problems` and
`_confidence` slots (`none` = Python `None`). -/
structure TypingResult where
  sample_name : String
  best_match : Locus
  pieces_store : List LocusPiece
  result_pieces : List Nat
  gene_store : List GeneResult
  expected_genes_inside_locus : List Nat
  expected_genes_outside_locus : List Nat
  unexpected_genes_inside_locus : List Nat
  unexpected_genes_outside_locus : List Nat
  extra_genes : List Nat
  missing_genes : List String
  percent_identity_memo : Option ℚ
  percent_coverage_memo : Option ℚ
  phenotype_memo : Option String
  problems_memo : Option String
  confidence_memo : Option String
deriving DecidableEq

/-- The gene result stored at index `i`. -/
def TypingResult.geneAt (r : TypingResult) (i : Nat) : GeneResult :=
  r.gene_store.getD i default

/-- The piece stored at index `i`. -/
def TypingResult.pieceAt (r : TypingResult) (i : Nat) : LocusPiece :=
  r.pieces_store.getD i default

/-- `GeneResult.__repr__`:
`f"{self.gene.name} {self.id}:{self.start}-{self.end}{self.strand}"`. -/
def TypingResult.geneReprAt (r : TypingResult) (i : Nat) : String :=
  let g := r.geneAt i
  g.gene.name ++ " " ++ g.id ++ ":" ++ toString g.start ++ "-" ++ toString g.end_ ++ g.strand

/-- `gene_result.gene_type.startswith(('expected', 'unexpected'))`. -/
def startsWithGeneKind (s : String) : Bool :=
  "expected".data.isPrefixOf s.data || "unexpected".data.isPrefixOf s.data

/-- The bound expansion of `LocusPiece.add_gene_result`: lower `start` to the
gene result's start and raise `end` to its end when necessary. -/
def LocusPiece.expand (p : LocusPiece) (g : GeneResult) : LocusPiece :=
  { p with
    start := if g.start < p.start then g.start else p.start,
    end_ := if g.end_ > p.end_ then g.end_ else p.end_ }

/-- `LocusPiece.add_gene_result` (src/kaptive/typing.py lines 287-292): expand
the piece bounds to the gene result, then append the gene index to
`getattr(self, gene_result.gene_type)`; a `gene_type` that is not one of the
piece's three list attributes raises `AttributeError`. -/
def LocusPiece.add_gene_result (p : LocusPiece) (gidx : Nat) (g : GeneResult) :
    Except PyErr LocusPiece :=
  if g.gene_type = "expected_genes" then
    .ok { p.expand g with expected_genes := (p.expand g).expected_genes ++ [gidx] }
  else if g.gene_type = "unexpected_genes" then
    .ok { p.expand g with unexpected_genes := (p.expand g).unexpected_genes ++ [gidx] }
  else if g.gene_type = "extra_genes" then
    .ok { p.expand g with extra_genes := (p.expand g).extra_genes ++ [gidx] }
  else .error .attributeError

/-- `getattr(self, attr).append(gene_result)` on a `TypingResult`: dispatch on
the five gene-result list attributes; any other name raises
`AttributeError` (a name hitting an unrelated attribute is not modelled). -/
def TypingResult.appendAttr (r : TypingResult) (attr : String) (gidx : Nat) :
    Except PyErr TypingResult :=
  if attr = "expected_genes_inside_locus" then
    .ok { r with expected_genes_inside_locus := r.expected_genes_inside_locus ++ [gidx] }
  else if attr = "unexpected_genes_inside_locus" then
    .ok { r with unexpected_genes_inside_locus := r.unexpected_genes_inside_locus ++ [gidx] }
  else if attr = "expected_genes_outside_locus" then
    .ok { r with expected_genes_outside_locus := r.expected_genes_outside_locus ++ [gidx] }
  else if attr = "unexpected_genes_outside_locus" then
    .ok { r with unexpected_genes_outside_locus := r.unexpected_genes_outside_locus ++ [gidx] }
  else if attr = "extra_genes" then
    .ok { r with extra_genes := r.extra_genes ++ [gidx] }
  else .error .attributeError

/-- The first step of `TypingResult.add_gene_result`: if the gene result at
`gidx` has a left neighbour, set that neighbour's `neighbour_right` to it. -/
def TypingResult.setNeighbourRight (r : TypingResult) (gidx : Nat) : TypingResult :=
  match (r.geneAt gidx).neighbour_left with
  | some j =>
    { r with gene_store := r.gene_store.set j { r.geneAt j with neighbour_right := some gidx } }
  | none => r

/-- `TypingResult.add_gene_result` (src/kaptive/typing.py lines 83-91).  If
the gene result has a left neighbour, point that neighbour's
`neighbour_right` at it.  Then `if gene_result.piece:` — the *truthiness* of
a `LocusPiece` goes through `LocusPiece.__len__`, so a piece of length zero
is falsy (and a negative length raises `ValueError` in CPython): a truthy
piece receives the gene result and the result is appended to the
`<gene_type>_inside_locus` list (suffix only for `expected`/`unexpected`
kinds), otherwise to the `<gene_type>_outside_locus` list. -/
def TypingResult.add_gene_result (r : TypingResult) (gidx : Nat) : Except PyErr TypingResult :=
  let g := r.geneAt gidx
  let r1 := r.setNeighbourRight gidx
  match g.piece with
  | some pidx =>
    let p := r1.pieceAt pidx
    if p.end_ - p.start < (0 : Int) then .error .valueError
    else if p.end_ - p.start = (0 : Int) then
      r1.appendAttr (g.gene_type ++ if startsWithGeneKind g.gene_type then "_outside_locus" else "")
        gidx
    else do
      let p' ← p.add_gene_result gidx g
      let r2 : TypingResult := { r1 with pieces_store := r1.pieces_store.set pidx p' }
      r2.appendAttr (g.gene_type ++ if startsWithGeneKind g.gene_type then "_inside_locus" else "")
        gidx
  | none =>
    r1.appendAttr (g.gene_type ++ if startsWithGeneKind g.gene_type then "_outside_locus" else "")
      gidx

/-- A sequence of `add_gene_result` calls, by gene index. -/
def TypingResult.addAll (r : TypingResult) (calls : List Nat) : Except PyErr TypingResult :=
  calls.foldlM TypingResult.add_gene_result r

/-- `TypingResult.__iter__`: the five gene-result lists chained in order
expected-in, unexpected-in, expected-out, unexpected-out, extra. -/
def TypingResult.allGeneIndices (r : TypingResult) : List Nat :=
  r.expected_genes_inside_locus ++ r.unexpected_genes_inside_locus ++
    r.expected_genes_outside_locus ++ r.unexpected_genes_outside_locus ++ r.extra_genes

/-- The `problems` computation (src/kaptive/typing.py lines 121-130): the
concatenation, in order, of `?N` (piece count ≠ 1), `-` (missing genes), `+`
(unexpected genes inside), `*` (an expected gene inside with coverage ≥ 90
and the below-threshold flag) and `!` (any truncated gene result). -/
def TypingResult.problemsOf (r : TypingResult) : String :=
  (if r.result_pieces.length ≠ 1 then "?" ++ toString r.result_pieces.length else "") ++
    (if r.missing_genes ≠ [] then "-" else "") ++
    (if r.unexpected_genes_inside_locus ≠ [] then "+" else "") ++
    (if r.expected_genes_inside_locus.any
        (fun i => decide ((90 : ℚ) ≤ (r.geneAt i).percent_coverage) && (r.geneAt i).below_threshold)
      then "*" else "") ++
    (if r.allGeneIndices.any (fun i => (r.geneAt i).phenotype == "truncated") then "!" else "")

/-- The `problems` property: the memoised value if present, else the computed
string. -/
def TypingResult.problemsProp (r : TypingResult) : String :=
  r.problems_memo.getD r.problemsOf

/-- Python `c in s` for a single character. -/
def pyInStr (c : Char) (s : String) : Bool := s.data.contains c

/-- `TypingResult.get_confidence` (src/kaptive/typing.py lines 136-147),
returning the value assigned to `self._confidence`.  The first line divides by
`len(self.best_match.genes)`, so a best match without genes raises
`ZeroDivisionError`. -/
def TypingResult.get_confidence (r : TypingResult) (allow_below_threshold : Bool)
    (max_other_genes : Int) (percent_expected_genes : ℚ) : Except PyErr String :=
  if r.best_match.genes.length = 0 then .error .zeroDivisionError
  else
    let p : ℚ := (r.expected_genes_inside_locus.length : ℚ) / (r.best_match.genes.length : ℚ) * 100
    let other_genes :=
      (r.unexpected_genes_inside_locus.filter
        (fun i => !((r.geneAt i).phenotype == "truncated"))).length
    .ok
      (if !allow_below_threshold && pyInStr '*' r.problemsProp then "Untypeable"
      else if r.result_pieces.length = 1 ∧ r.missing_genes = [] ∧ other_genes = 0 then "Typeable"
      else if (other_genes : Int) ≤ max_other_genes ∧ percent_expected_genes ≤ p then "Typeable"
      else "Untypeable")

/-- The `problems` string as the claim words it (C6). -/
def TypingResult.problemsSpec (r : TypingResult) : String :=
  (if r.result_pieces.length = 1 then "" else "?" ++ toString r.result_pieces.length) ++
    (if r.missing_genes.isEmpty then "" else "-") ++
    (if r.unexpected_genes_inside_locus.isEmpty then "" else "+") ++
    (if ∃ i ∈ r.expected_genes_inside_locus,
        (90 : ℚ) ≤ (r.geneAt i).percent_coverage ∧ (r.geneAt i).below_threshold = true
      then "*" else "") ++
    (if ∃ i ∈ r.allGeneIndices, (r.geneAt i).phenotype = "truncated" then "!" else "")

/-- C6: the `problems` string is exactly the ordered concatenation of the five
markers described by the claim — `?N`, `-`, `+`, `*`, `!` — and nothing
else. -/
theorem problems_matches_spec (r : TypingResult) : r.problemsOf = r.problemsSpec := by
  unfold TypingResult.problemsOf TypingResult.problemsSpec
  have h1 :
      (if r.result_pieces.length ≠ 1 then "?" ++ toString r.result_pieces.length else "") =
        (if r.result_pieces.length = 1 then "" else "?" ++ toString r.result_pieces.length) := by
    by_cases h : r.result_pieces.length = 1 <;> simp [h]
  have h2 : (if r.missing_genes ≠ [] then "-" else "") =
      (if r.missing_genes.isEmpty then "" else "-") := by
    by_cases h : r.missing_genes = [] <;> simp [h]
  have h3 : (if r.unexpected_genes_inside_locus ≠ [] then "+" else "") =
      (if r.unexpected_genes_inside_locus.isEmpty then "" else "+") := by
    by_cases h : r.unexpected_genes_inside_locus = [] <;> simp [h]
  have h4 :
      (if r.expected_genes_inside_locus.any
          (fun i =>
            decide ((90 : ℚ) ≤ (r.geneAt i).percent_coverage) && (r.geneAt i).below_threshold)
        then "*" else "") =
        (if ∃ i ∈ r.expected_genes_inside_locus,
            (90 : ℚ) ≤ (r.geneAt i).percent_coverage ∧ (r.geneAt i).below_threshold = true
          then "*" else "") := by
    by_cases h : ∃ i ∈ r.expected_genes_inside_locus,
        (90 : ℚ) ≤ (r.geneAt i).percent_coverage ∧ (r.geneAt i).below_threshold = true <;>
      simp [List.any_eq_true, h]
  have h5 : (if r.allGeneIndices.any (fun i => (r.geneAt i).phenotype == "truncated")
        then "!" else "") =
      (if ∃ i ∈ r.allGeneIndices, (r.geneAt i).phenotype = "truncated" then "!" else "") := by
    by_cases h : ∃ i ∈ r.allGeneIndices, (r.geneAt i).phenotype = "truncated" <;>
      simp [List.any_eq_true, h]
  rw [h1, h2, h3, h4, h5]

/-- The confidence verdict as the claim words it (C3): with
`p = 100·|expected inside|/|best-match genes|` and `other` the number of
non-truncated unexpected genes inside the locus. -/
def TypingResult.confidenceSpec (r : TypingResult) (allow_below_threshold : Bool)
    (max_other_genes : Int) (percent_expected_genes : ℚ) : String :=
  let p : ℚ := 100 * (r.expected_genes_inside_locus.length : ℚ) / (r.best_match.genes.length : ℚ)
  let other :=
    (r.unexpected_genes_inside_locus.filter
      (fun i => decide (¬ (r.geneAt i).phenotype = "truncated"))).length
  if allow_below_threshold = false ∧ pyInStr '*' r.problemsProp = true then "Untypeable"
  else if r.result_pieces.length = 1 ∧ r.missing_genes = [] ∧ other = 0 then "Typeable"
  else if (other : Int) ≤ max_other_genes ∧ percent_expected_genes ≤ p then "Typeable"
  else "Untypeable"

/-- C3: `get_confidence` returns exactly the case split the claim describes
(the best match must have at least one gene, otherwise the very first
division raises `ZeroDivisionError`). -/
theorem get_confidence_matches_spec (r : TypingResult) (allow_below_threshold : Bool)
    (max_other_genes : Int) (percent_expected_genes : ℚ)
    (h : r.best_match.genes ≠ []) :
    r.get_confidence allow_below_threshold max_other_genes percent_expected_genes =
      .ok (r.confidenceSpec allow_below_threshold max_other_genes percent_expected_genes) := by
  have hlen : r.best_match.genes.length ≠ 0 := by
    simpa [List.length_eq_zero] using h
  unfold TypingResult.get_confidence TypingResult.confidenceSpec
  rw [if_neg hlen]
  have hfilter :
      (r.unexpected_genes_inside_locus.filter
          (fun i => !((r.geneAt i).phenotype == "truncated"))) =
        (r.unexpected_genes_inside_locus.filter
          (fun i => decide (¬ (r.geneAt i).phenotype = "truncated"))) := by
    apply List.filter_congr
    intro i _
    by_cases hh : (r.geneAt i).phenotype = "truncated" <;> simp [hh]
  have hp : (r.expected_genes_inside_locus.length : ℚ) / (r.best_match.genes.length : ℚ) * 100 =
      100 * (r.expected_genes_inside_locus.length : ℚ) / (r.best_match.genes.length : ℚ) := by
    ring
  rw [hfilter, hp]
  simp only [Bool.and_eq_true, Bool.not_eq_true']

/-- A small fully-typed result: one piece, one expected gene inside the
locus, nothing missing and nothing unexpected. -/
def cleanResult : TypingResult :=
  let gene : Gene := { name := "L1_1", strand := "+", length := 100 }
  let piece : LocusPiece :=
    { id := "ctg", start := 0, end_ := 100, strand := "+", sequence_ := "",
      expected_genes := [0], unexpected_genes := [], extra_genes := [] }
  let gr : GeneResult :=
    { id := "ctg", gene := gene, start := 0, end_ := 100, strand := "+",
      dna_seq := "", protein_seq := "", partialFlag := false, below_threshold := false,
      phenotype := "present", gene_type := "expected_genes", percent_identity := 98,
      percent_coverage := 100, piece := some 0, neighbour_left := none,
      neighbour_right := none }
  { sample_name := "s",
    best_match := { name := "L1", genes := [("L1_1", gene)], phenotypes := [], type_label := "L1" },
    pieces_store := [piece], result_pieces := [0], gene_store := [gr],
    expected_genes_inside_locus := [0], expected_genes_outside_locus := [],
    unexpected_genes_inside_locus := [], unexpected_genes_outside_locus := [],
    extra_genes := [], missing_genes := [],
    percent_identity_memo := none, percent_coverage_memo := none, phenotype_memo := none,
    problems_memo := none, confidence_memo := none }

/-- Witness for [get_confidence_matches_spec] at a concrete result. -/
theorem get_confidence_matches_spec_witness :
    cleanResult.get_confidence false 1 50 = .ok "Typeable" := by
  have h := get_confidence_matches_spec cleanResult false 1 50 (by decide)
  rw [h]
  show Except.ok (TypingResult.confidenceSpec _ _ _ _) = _
  unfold TypingResult.confidenceSpec
  have hpt : (("present" : String) = "truncated") ↔ False := by simp
  norm_num [cleanResult, pyInStr, TypingResult.problemsProp, TypingResult.problemsOf,
    TypingResult.geneAt, TypingResult.allGeneIndices, hpt]

/-- The piece-finalisation step of `typing_pipeline`
(src/kaptive/assembly.py lines 212-219) for one piece: a piece with no
expected gene results is skipped; otherwise its strand is set by
`"+" if max(i.strand == i.gene.strand for i in piece.expected_genes) else "-"`
— Python `max` over booleans is `True` iff *any* element is `True` — and its
sequence to `assembly.seq(ctg, start, end, strand)` (the assembly is abstracted
as `seqFn`). -/
def finalizePiece (r : TypingResult) (seqFn : String → Int → Int → String → String)
    (pidx : Nat) : Option LocusPiece :=
  let p := r.pieceAt pidx
  if p.expected_genes.isEmpty then none
  else
    let strand :=
      if p.expected_genes.any (fun i => (r.geneAt i).strand == (r.geneAt i).gene.strand)
      then "+" else "-"
    some { p with strand := strand, sequence_ := seqFn p.id p.start p.end_ strand }

/-- The pieces appended to `result.pieces` by the finalisation loop, in
iteration order. -/
def finalizePieces (r : TypingResult) (seqFn : String → Int → Int → String → String)
    (idxs : List Nat) : List LocusPiece :=
  idxs.filterMap (finalizePiece r seqFn)

/-- Piece finalisation as the amended claim words it: keep exactly the pieces
with at least one expected gene result, setting the strand to `+` iff some
expected gene result matches its reference gene's strand. -/
def finalizePieceSpec (r : TypingResult) (seqFn : String → Int → Int → String → String)
    (pidx : Nat) : Option LocusPiece :=
  let p := r.pieceAt pidx
  if p.expected_genes = [] then none
  else
    let strand :=
      if ∃ i ∈ p.expected_genes, (r.geneAt i).strand = (r.geneAt i).gene.strand
      then "+" else "-"
    some { p with strand := strand, sequence_ := seqFn p.id p.start p.end_ strand }

/-- A constant stand-in for `assembly.seq`. -/
def constSeq : String → Int → Int → String → String := fun _ _ _ _ => ""

/-- A result whose single piece has three expected gene results, only one of
which is on its reference gene's strand. -/
def mixedStrandResult : TypingResult :=
  let mkGene : String → String → GeneResult := fun gstrand astrand =>
    { id := "ctg", gene := { name := "L1_1", strand := gstrand, length := 100 },
      start := 0, end_ := 100, strand := astrand, dna_seq := "", protein_seq := "",
      partialFlag := false, below_threshold := false, phenotype := "present",
      gene_type := "expected_genes", percent_identity := 0, percent_coverage := 0,
      piece := some 0, neighbour_left := none, neighbour_right := none }
  let piece : LocusPiece :=
    { id := "ctg", start := 0, end_ := 300, strand := "unknown", sequence_ := "",
      expected_genes := [0, 1, 2], unexpected_genes := [], extra_genes := [] }
  { sample_name := "s",
    best_match := { name := "L1", genes := [], phenotypes := [], type_label := "L1" },
    pieces_store := [piece], result_pieces := [],
    gene_store := [mkGene "+" "-", mkGene "+" "-", mkGene "+" "+"],
    expected_genes_inside_locus := [0, 1, 2], expected_genes_outside_locus := [],
    unexpected_genes_inside_locus := [], unexpected_genes_outside_locus := [],
    extra_genes := [], missing_genes := [],
    percent_identity_memo := none, percent_coverage_memo := none, phenotype_memo := none,
    problems_memo := none, confidence_memo := none }

/-- C7 counterexample: with three expected gene results of which only one
matches its gene's strand, the code sets the consensus strand to `"+"`
although the matching gene results are not a majority (1 of 3): the strand is
*any*-based, not majority-based. -/
theorem finalize_strand_counterexample :
    (finalizePieces mixedStrandResult constSeq [0]).map LocusPiece.strand = ["+"] ∧
      2 * ((mixedStrandResult.pieceAt 0).expected_genes.filter
          (fun i =>
            (mixedStrandResult.geneAt i).strand == (mixedStrandResult.geneAt i).gene.strand)).length <
        (mixedStrandResult.pieceAt 0).expected_genes.length := by
  exact ⟨rfl, by decide⟩

/-- C7 amended: finalisation keeps exactly the pieces with at least one
expected gene result (the rest are dropped), and sets the consensus strand to
`+` iff at least one expected gene result satisfies
`gene_result.strand == gene_result.gene.strand` (Python `max` over booleans),
else `−`. -/
theorem finalize_pieces_any_strand (r : TypingResult)
    (seqFn : String → Int → Int → String → String) (idxs : List Nat) :
    finalizePieces r seqFn idxs = idxs.filterMap (finalizePieceSpec r seqFn) := by
  unfold finalizePieces
  apply List.filterMap_congr
  intro pidx _
  unfold finalizePiece finalizePieceSpec
  by_cases hempty : (r.pieceAt pidx).expected_genes = []
  · simp [hempty]
  · rw [if_neg (by simpa [List.isEmpty_iff] using hempty), if_neg hempty]
    by_cases hany : ∃ i ∈ (r.pieceAt pidx).expected_genes,
        (r.geneAt i).strand = (r.geneAt i).gene.strand
    · rw [if_pos _, if_pos hany]
      simp only [List.any_eq_true, beq_iff_eq]
      exact hany
    · rw [if_neg _, if_neg hany]
      simp only [List.any_eq_true, beq_iff_eq]
      exact hany

/-- `getD` after `set`: the updated element at an in-range updated index,
otherwise the old value. -/
theorem getD_set {α : Type} (l : List α) (j k : Nat) (v d : α) :
    (l.set j v).getD k d = if j = k ∧ j < l.length then v else l.getD k d := by
  induction l generalizing j k with
  | nil => simp [List.getD]
  | cons a t ih =>
    cases j with
    | zero =>
      cases k with
      | zero => simp
      | succ m => simp [List.getD]
    | succ n =>
      cases k with
      | zero => simp [List.getD]
      | succ m =>
        simp only [List.set, List.length_cons, List.getD_cons_succ]
        rw [ih n m]
        by_cases h : n = m ∧ n < t.length
        · rw [if_pos h, if_pos ⟨by omega, by omega⟩]
        · rw [if_neg h, if_neg (by omega)]

/-- `getattr(piece, gene_type)`: the piece gene list selected by a
`gene_type` among the three list attributes. -/
def pieceListFor (p : LocusPiece) (gt : String) : List Nat :=
  if gt = "expected_genes" then p.expected_genes
  else if gt = "unexpected_genes" then p.unexpected_genes
  else p.extra_genes

/-- The gene-result list of a `TypingResult` selected by attribute name
(empty for a name that is not one of the five). -/
def TypingResult.attrList (r : TypingResult) (attr : String) : List Nat :=
  if attr = "expected_genes_inside_locus" then r.expected_genes_inside_locus
  else if attr = "unexpected_genes_inside_locus" then r.unexpected_genes_inside_locus
  else if attr = "expected_genes_outside_locus" then r.expected_genes_outside_locus
  else if attr = "unexpected_genes_outside_locus" then r.unexpected_genes_outside_locus
  else if attr = "extra_genes" then r.extra_genes
  else []

/-- Gene result `i` is placed inside the locus: its piece pointer refers to a
valid piece whose `gene_type` list contains `i` and whose bounds cover the
gene result.  (`r0` carries the gene data — `add_gene_result` never changes a
gene result's `piece`, `gene_type`, `start` or `end` — while `r` carries the
evolving pieces and lists.) -/
def InsidePlaced (r0 r : TypingResult) (i : Nat) : Prop :=
  ∃ pidx, (r0.geneAt i).piece = some pidx ∧ pidx < r0.pieces_store.length ∧
    i ∈ pieceListFor (r.pieceAt pidx) (r0.geneAt i).gene_type ∧
    (r.pieceAt pidx).start ≤ (r0.geneAt i).start ∧
    (r0.geneAt i).end_ ≤ (r.pieceAt pidx).end_

/-- The store part of the `add_gene_result` invariant: the piece store keeps
its size, gene results keep their routing fields, every piece stays of
positive length, and every piece's bounds cover all its member gene
results. -/
def StoreInv (r0 r : TypingResult) : Prop :=
  r.pieces_store.length = r0.pieces_store.length ∧
  (∀ j, (r.geneAt j).piece = (r0.geneAt j).piece ∧
    (r.geneAt j).gene_type = (r0.geneAt j).gene_type ∧
    (r.geneAt j).start = (r0.geneAt j).start ∧
    (r.geneAt j).end_ = (r0.geneAt j).end_) ∧
  (∀ pidx, pidx < r0.pieces_store.length →
    0 < (r.pieceAt pidx).end_ - (r.pieceAt pidx).start) ∧
  (∀ pidx, pidx < r0.pieces_store.length →
    ∀ i ∈ (r.pieceAt pidx).expected_genes ++ (r.pieceAt pidx).unexpected_genes ++
        (r.pieceAt pidx).extra_genes,
      (r.pieceAt pidx).start ≤ (r0.geneAt i).start ∧
        (r0.geneAt i).end_ ≤ (r.pieceAt pidx).end_)

/-- The list part of the `add_gene_result` invariant (the amended claim C8):
members of the two `*_inside_locus` lists are placed inside their piece,
members of the two `*_outside_locus` lists have no piece, and members of
`extra_genes` either have no piece or are placed inside their piece. -/
def ListInv (r0 r : TypingResult) : Prop :=
  (∀ i ∈ r.expected_genes_inside_locus ++ r.unexpected_genes_inside_locus,
    InsidePlaced r0 r i) ∧
  (∀ i ∈ r.expected_genes_outside_locus ++ r.unexpected_genes_outside_locus,
    (r0.geneAt i).piece = none) ∧
  (∀ i ∈ r.extra_genes, (r0.geneAt i).piece = none ∨ InsidePlaced r0 r i)

/-- The full `add_gene_result` invariant. -/
def AddInv (r0 r : TypingResult) : Prop := StoreInv r0 r ∧ ListInv r0 r

theorem setNR_fields (r : TypingResult) (gidx : Nat) :
    (r.setNeighbourRight gidx).pieces_store = r.pieces_store ∧
    (r.setNeighbourRight gidx).expected_genes_inside_locus = r.expected_genes_inside_locus ∧
    (r.setNeighbourRight gidx).unexpected_genes_inside_locus = r.unexpected_genes_inside_locus ∧
    (r.setNeighbourRight gidx).expected_genes_outside_locus = r.expected_genes_outside_locus ∧
    (r.setNeighbourRight gidx).unexpected_genes_outside_locus = r.unexpected_genes_outside_locus ∧
    (r.setNeighbourRight gidx).extra_genes = r.extra_genes := by
  unfold TypingResult.setNeighbourRight
  cases (r.geneAt gidx).neighbour_left <;> exact ⟨rfl, rfl, rfl, rfl, rfl, rfl⟩

theorem setNR_geneAt (r : TypingResult) (gidx j : Nat) :
    ((r.setNeighbourRight gidx).geneAt j).piece = (r.geneAt j).piece ∧
    ((r.setNeighbourRight gidx).geneAt j).gene_type = (r.geneAt j).gene_type ∧
    ((r.setNeighbourRight gidx).geneAt j).start = (r.geneAt j).start ∧
    ((r.setNeighbourRight gidx).geneAt j).end_ = (r.geneAt j).end_ := by
  unfold TypingResult.setNeighbourRight
  cases h : (r.geneAt gidx).neighbour_left with
  | none => exact ⟨rfl, rfl, rfl, rfl⟩
  | some j0 =>
    show ((TypingResult.geneAt _ j).piece = _) ∧ _
    unfold TypingResult.geneAt
    simp only
    rw [getD_set]
    by_cases hc : j0 = j ∧ j0 < r.gene_store.length
    · rw [if_pos hc]
      obtain ⟨rfl, -⟩ := hc
      exact ⟨rfl, rfl, rfl, rfl⟩
    · rw [if_neg hc]
      exact ⟨rfl, rfl, rfl, rfl⟩

theorem appendAttr_ok_cases {r r' : TypingResult} {attr : String} {gidx : Nat}
    (h : r.appendAttr attr gidx = .ok r') :
    r'.pieces_store = r.pieces_store ∧ r'.gene_store = r.gene_store ∧
    ((attr = "expected_genes_inside_locus" ∧
        r' = { r with expected_genes_inside_locus := r.expected_genes_inside_locus ++ [gidx] }) ∨
      (attr = "unexpected_genes_inside_locus" ∧
        r' = { r with unexpected_genes_inside_locus := r.unexpected_genes_inside_locus ++ [gidx] }) ∨
      (attr = "expected_genes_outside_locus" ∧
        r' = { r with expected_genes_outside_locus := r.expected_genes_outside_locus ++ [gidx] }) ∨
      (attr = "unexpected_genes_outside_locus" ∧
        r' = { r with unexpected_genes_outside_locus := r.unexpected_genes_outside_locus ++ [gidx] }) ∨
      (attr = "extra_genes" ∧ r' = { r with extra_genes := r.extra_genes ++ [gidx] })) := by
  unfold TypingResult.appendAttr at h
  split_ifs at h with h1 h2 h3 h4 h5
  · cases h
    exact ⟨rfl, rfl, Or.inl ⟨h1, rfl⟩⟩
  · cases h
    exact ⟨rfl, rfl, Or.inr (Or.inl ⟨h2, rfl⟩)⟩
  · cases h
    exact ⟨rfl, rfl, Or.inr (Or.inr (Or.inl ⟨h3, rfl⟩))⟩
  · cases h
    exact ⟨rfl, rfl, Or.inr (Or.inr (Or.inr (Or.inl ⟨h4, rfl⟩)))⟩
  · cases h
    exact ⟨rfl, rfl, Or.inr (Or.inr (Or.inr (Or.inr ⟨h5, rfl⟩)))⟩

theorem expand_start_le (p : LocusPiece) (g : GeneResult) :
    (p.expand g).start ≤ p.start ∧ (p.expand g).start ≤ g.start ∧
    p.end_ ≤ (p.expand g).end_ ∧ g.end_ ≤ (p.expand g).end_ := by
  unfold LocusPiece.expand
  dsimp only
  refine ⟨?_, ?_, ?_, ?_⟩ <;> split <;> omega

theorem locusPiece_add_ok {p p' : LocusPiece} {gidx : Nat} {g : GeneResult}
    (h : p.add_gene_result gidx g = .ok p') :
    p'.start ≤ p.start ∧ p'.start ≤ g.start ∧ p.end_ ≤ p'.end_ ∧ g.end_ ≤ p'.end_ ∧
    ((g.gene_type = "expected_genes" ∧ p'.expected_genes = p.expected_genes ++ [gidx] ∧
        p'.unexpected_genes = p.unexpected_genes ∧ p'.extra_genes = p.extra_genes) ∨
      (g.gene_type = "unexpected_genes" ∧ p'.expected_genes = p.expected_genes ∧
        p'.unexpected_genes = p.unexpected_genes ++ [gidx] ∧ p'.extra_genes = p.extra_genes) ∨
      (g.gene_type = "extra_genes" ∧ p'.expected_genes = p.expected_genes ∧
        p'.unexpected_genes = p.unexpected_genes ∧ p'.extra_genes = p.extra_genes ++ [gidx])) := by
  have hx := expand_start_le p g
  unfold LocusPiece.add_gene_result at h
  split_ifs at h with h1 h2 h3
  · cases h
    exact ⟨hx.1, hx.2.1, hx.2.2.1, hx.2.2.2, Or.inl ⟨h1, rfl, rfl, rfl⟩⟩
  · cases h
    exact ⟨hx.1, hx.2.1, hx.2.2.1, hx.2.2.2, Or.inr (Or.inl ⟨h2, rfl, rfl, rfl⟩)⟩
  · cases h
    exact ⟨hx.1, hx.2.1, hx.2.2.1, hx.2.2.2, Or.inr (Or.inr ⟨h3, rfl, rfl, rfl⟩)⟩

/-- If `x ++ y = t` then the reversed target starts with the reversed
suffix: the device used below to refute impossible attribute-name
equations. -/
theorem append_suffix_eq {x y t : String} (h : x ++ y = t) :
    t.data.reverse.take y.data.length = y.data.reverse := by
  have hd : t.data = x.data ++ y.data := by rw [← h, String.data_append]
  rw [hd, List.reverse_append]
  simp [List.take_left y.data.reverse x.data.reverse]

/-- No string with suffix `y` equals `t` when the reversed take test fails
(discharged by `decide` at concrete `y`, `t`). -/
theorem append_ne_of_take_ne {y t : String}
    (h : t.data.reverse.take y.data.length ≠ y.data.reverse) (x : String) : x ++ y ≠ t :=
  fun hx => h (append_suffix_eq hx)

theorem string_append_empty (s : String) : s ++ "" = s := by
  cases s with
  | mk d => exact congrArg String.mk (List.append_nil d)

theorem getD_mem {α : Type} (l : List α) (n : Nat) (d : α) (h : n < l.length) :
    l.getD n d ∈ l := by
  induction l generalizing n with
  | nil => simp at h
  | cons a t ih =>
    cases n with
    | zero => simp
    | succ m =>
      simp only [List.getD_cons_succ]
      exact List.mem_cons_of_mem a (ih m (by simpa using h))

theorem insidePlaced_mono {r0 r r' : TypingResult}
    (h : ∀ pidx, pidx < r0.pieces_store.length →
      (r'.pieceAt pidx).start ≤ (r.pieceAt pidx).start ∧
      (r.pieceAt pidx).end_ ≤ (r'.pieceAt pidx).end_ ∧
      ∀ gt, ∀ i ∈ pieceListFor (r.pieceAt pidx) gt, i ∈ pieceListFor (r'.pieceAt pidx) gt) :
    ∀ i, InsidePlaced r0 r i → InsidePlaced r0 r' i := by
  intro i hi
  obtain ⟨pidx, hp, hlt, hmem, hs, he⟩ := hi
  obtain ⟨h1, h2, h3⟩ := h pidx hlt
  exact ⟨pidx, hp, hlt, h3 _ i hmem, le_trans h1 hs, le_trans he h2⟩

theorem addInv_setNR {r0 r : TypingResult} (gidx : Nat) (h : AddInv r0 r) :
    AddInv r0 (r.setNeighbourRight gidx) := by
  obtain ⟨⟨hlen, hframe, hpos, hcover⟩, hin, hout, hextra⟩ := h
  have hf := setNR_fields r gidx
  have hpAt : (r.setNeighbourRight gidx).pieceAt = r.pieceAt := by
    funext i
    unfold TypingResult.pieceAt
    rw [hf.1]
  refine ⟨⟨?_, ?_, ?_, ?_⟩, ?_, ?_, ?_⟩
  · rw [hf.1]
    exact hlen
  · intro j
    obtain ⟨a, b, c, d⟩ := setNR_geneAt r gidx j
    exact ⟨a.trans (hframe j).1, b.trans (hframe j).2.1, c.trans (hframe j).2.2.1,
      d.trans (hframe j).2.2.2⟩
  · intro pidx hp
    rw [hpAt]
    exact hpos pidx hp
  · intro pidx hp
    rw [hpAt]
    exact hcover pidx hp
  · intro i hi
    rw [hf.2.1, hf.2.2.1] at hi
    unfold InsidePlaced
    rw [hpAt]
    exact hin i hi
  · intro i hi
    rw [hf.2.2.2.1, hf.2.2.2.2.1] at hi
    exact hout i hi
  · intro i hi
    rw [hf.2.2.2.2.2] at hi
    rcases hextra i hi with hnone | hplace
    · exact Or.inl hnone
    · right
      unfold InsidePlaced
      rw [hpAt]
      exact hplace

/-- Appending a gene result with a falsy piece (`None` in `r0`) to its
`*_outside_locus` (or `extra_genes`) list preserves the invariant. -/
theorem addInv_append_outside {r0 rb r' : TypingResult} {gidx : Nat} {gt : String}
    (hInvB : AddInv r0 rb)
    (hnone : (r0.geneAt gidx).piece = none)
    (hok : rb.appendAttr (gt ++ if startsWithGeneKind gt then "_outside_locus" else "") gidx =
      .ok r') :
    AddInv r0 r' ∧ (∀ a, ∀ i ∈ rb.attrList a, i ∈ r'.attrList a) ∧
    (∀ i, InsidePlaced r0 rb i → InsidePlaced r0 r' i) ∧
    gidx ∈ r'.attrList (gt ++ if startsWithGeneKind gt then "_outside_locus" else "") := by
  obtain ⟨⟨hlen, hframe, hpos, hcover⟩, hin, hout, hextra⟩ := hInvB
  obtain ⟨hps, hgs, hcases⟩ := appendAttr_ok_cases hok
  have hpAt : r'.pieceAt = rb.pieceAt := by
    funext i
    unfold TypingResult.pieceAt
    rw [hps]
  have hgAt : r'.geneAt = rb.geneAt := by
    funext i
    unfold TypingResult.geneAt
    rw [hgs]
  have hIP : ∀ i, InsidePlaced r0 rb i → InsidePlaced r0 r' i := by
    intro i hi
    unfold InsidePlaced at hi ⊢
    rw [hpAt]
    exact hi
  have hStore : StoreInv r0 r' := by
    refine ⟨?_, ?_, ?_, ?_⟩
    · rw [hps]; exact hlen
    · intro j; rw [hgAt]; exact hframe j
    · intro pidx hp; rw [hpAt]; exact hpos pidx hp
    · intro pidx hp; rw [hpAt]; exact hcover pidx hp
  cases hsw : startsWithGeneKind gt with
  | true =>
    simp only [hsw, if_true] at hcases ⊢
    rcases hcases with ⟨hattr, rfl⟩ | ⟨hattr, rfl⟩ | ⟨hattr, rfl⟩ | ⟨hattr, rfl⟩ | ⟨hattr, rfl⟩
    · exact absurd hattr (append_ne_of_take_ne (by decide) gt)
    · exact absurd hattr (append_ne_of_take_ne (by decide) gt)
    · refine ⟨⟨hStore, ?_, ?_, ?_⟩, ?_, hIP, ?_⟩
      · intro i hi
        exact hIP i (hin i hi)
      · intro i hi
        rcases List.mem_append.mp hi with hi1 | hi2
        · rcases List.mem_append.mp hi1 with hi1 | hi1
          · exact hout i (List.mem_append.mpr (Or.inl hi1))
          · rw [List.mem_singleton.mp hi1]
            exact hnone
        · exact hout i (List.mem_append.mpr (Or.inr hi2))
      · intro i hi
        rcases hextra i hi with hn | hp
        · exact Or.inl hn
        · exact Or.inr (hIP i hp)
      · intro a i hi
        unfold TypingResult.attrList at hi ⊢
        split_ifs at hi ⊢ <;>
          first
            | exact hi
            | exact List.mem_append_left _ hi
      · rw [hattr]
        unfold TypingResult.attrList
        simp
    · refine ⟨⟨hStore, ?_, ?_, ?_⟩, ?_, hIP, ?_⟩
      · intro i hi
        exact hIP i (hin i hi)
      · intro i hi
        rcases List.mem_append.mp hi with hi1 | hi2
        · exact hout i (List.mem_append.mpr (Or.inl hi1))
        · rcases List.mem_append.mp hi2 with hi2 | hi2
          · exact hout i (List.mem_append.mpr (Or.inr hi2))
          · rw [List.mem_singleton.mp hi2]
            exact hnone
      · intro i hi
        rcases hextra i hi with hn | hp
        · exact Or.inl hn
        · exact Or.inr (hIP i hp)
      · intro a i hi
        unfold TypingResult.attrList at hi ⊢
        split_ifs at hi ⊢ <;>
          first
            | exact hi
            | exact List.mem_append_left _ hi
      · rw [hattr]
        unfold TypingResult.attrList
        simp
    · exact absurd hattr (append_ne_of_take_ne (by decide) gt)
  | false =>
    simp only [hsw, Bool.false_eq_true, if_false, string_append_empty] at hcases ⊢
    rcases hcases with ⟨hattr, rfl⟩ | ⟨hattr, rfl⟩ | ⟨hattr, rfl⟩ | ⟨hattr, rfl⟩ | ⟨hattr, rfl⟩
    · rw [hattr] at hsw
      exact absurd hsw (by decide)
    · rw [hattr] at hsw
      exact absurd hsw (by decide)
    · rw [hattr] at hsw
      exact absurd hsw (by decide)
    · rw [hattr] at hsw
      exact absurd hsw (by decide)
    · refine ⟨⟨hStore, ?_, ?_, ?_⟩, ?_, hIP, ?_⟩
      · intro i hi
        exact hIP i (hin i hi)
      · intro i hi
        exact hout i hi
      · intro i hi
        rcases List.mem_append.mp hi with hi1 | hi2
        · rcases hextra i hi1 with hn | hp
          · exact Or.inl hn
          · exact Or.inr (hIP i hp)
        · rw [List.mem_singleton.mp hi2]
          exact Or.inl hnone
      · intro a i hi
        unfold TypingResult.attrList at hi ⊢
        split_ifs at hi ⊢ <;>
          first
            | exact hi
            | exact List.mem_append_left _ hi
      · rw [hattr]
        unfold TypingResult.attrList
        simp

/-- Appending a gene result already placed inside its piece to its
`*_inside_locus` (or `extra_genes`) list preserves the invariant. -/
theorem addInv_append_inside {r0 rb r' : TypingResult} {gidx : Nat} {gt : String}
    (hInvB : AddInv r0 rb)
    (hplaced : InsidePlaced r0 rb gidx)
    (hok : rb.appendAttr (gt ++ if startsWithGeneKind gt then "_inside_locus" else "") gidx =
      .ok r') :
    AddInv r0 r' ∧ (∀ a, ∀ i ∈ rb.attrList a, i ∈ r'.attrList a) ∧
    (∀ i, InsidePlaced r0 rb i → InsidePlaced r0 r' i) ∧
    gidx ∈ r'.attrList (gt ++ if startsWithGeneKind gt then "_inside_locus" else "") := by
  obtain ⟨⟨hlen, hframe, hpos, hcover⟩, hin, hout, hextra⟩ := hInvB
  obtain ⟨hps, hgs, hcases⟩ := appendAttr_ok_cases hok
  have hpAt : r'.pieceAt = rb.pieceAt := by
    funext i
    unfold TypingResult.pieceAt
    rw [hps]
  have hgAt : r'.geneAt = rb.geneAt := by
    funext i
    unfold TypingResult.geneAt
    rw [hgs]
  have hIP : ∀ i, InsidePlaced r0 rb i → InsidePlaced r0 r' i := by
    intro i hi
    unfold InsidePlaced at hi ⊢
    rw [hpAt]
    exact hi
  have hStore : StoreInv r0 r' := by
    refine ⟨?_, ?_, ?_, ?_⟩
    · rw [hps]; exact hlen
    · intro j; rw [hgAt]; exact hframe j
    · intro pidx hp; rw [hpAt]; exact hpos pidx hp
    · intro pidx hp; rw [hpAt]; exact hcover pidx hp
  cases hsw : startsWithGeneKind gt with
  | true =>
    simp only [hsw, if_true] at hcases ⊢
    rcases hcases with ⟨hattr, rfl⟩ | ⟨hattr, rfl⟩ | ⟨hattr, rfl⟩ | ⟨hattr, rfl⟩ | ⟨hattr, rfl⟩
    · refine ⟨⟨hStore, ?_, ?_, ?_⟩, ?_, hIP, ?_⟩
      · intro i hi
        rcases List.mem_append.mp hi with hi1 | hi2
        · rcases List.mem_append.mp hi1 with hi1 | hi1
          · exact hIP i (hin i (List.mem_append.mpr (Or.inl hi1)))
          · rw [List.mem_singleton.mp hi1]
            exact hIP gidx hplaced
        · exact hIP i (hin i (List.mem_append.mpr (Or.inr hi2)))
      · intro i hi
        exact hout i hi
      · intro i hi
        rcases hextra i hi with hn | hp
        · exact Or.inl hn
        · exact Or.inr (hIP i hp)
      · intro a i hi
        unfold TypingResult.attrList at hi ⊢
        split_ifs at hi ⊢ <;>
          first
            | exact hi
            | exact List.mem_append_left _ hi
      · rw [hattr]
        unfold TypingResult.attrList
        simp
    · refine ⟨⟨hStore, ?_, ?_, ?_⟩, ?_, hIP, ?_⟩
      · intro i hi
        rcases List.mem_append.mp hi with hi1 | hi2
        · exact hIP i (hin i (List.mem_append.mpr (Or.inl hi1)))
        · rcases List.mem_append.mp hi2 with hi2 | hi2
          · exact hIP i (hin i (List.mem_append.mpr (Or.inr hi2)))
          · rw [List.mem_singleton.mp hi2]
            exact hIP gidx hplaced
      · intro i hi
        exact hout i hi
      · intro i hi
        rcases hextra i hi with hn | hp
        · exact Or.inl hn
        · exact Or.inr (hIP i hp)
      · intro a i hi
        unfold TypingResult.attrList at hi ⊢
        split_ifs at hi ⊢ <;>
          first
            | exact hi
            | exact List.mem_append_left _ hi
      · rw [hattr]
        unfold TypingResult.attrList
        simp
    · exact absurd hattr (append_ne_of_take_ne (by decide) gt)
    · exact absurd hattr (append_ne_of_take_ne (by decide) gt)
    · exact absurd hattr (append_ne_of_take_ne (by decide) gt)
  | false =>
    simp only [hsw, Bool.false_eq_true, if_false, string_append_empty] at hcases ⊢
    rcases hcases with ⟨hattr, rfl⟩ | ⟨hattr, rfl⟩ | ⟨hattr, rfl⟩ | ⟨hattr, rfl⟩ | ⟨hattr, rfl⟩
    · rw [hattr] at hsw
      exact absurd hsw (by decide)
    · rw [hattr] at hsw
      exact absurd hsw (by decide)
    · rw [hattr] at hsw
      exact absurd hsw (by decide)
    · rw [hattr] at hsw
      exact absurd hsw (by decide)
    · refine ⟨⟨hStore, ?_, ?_, ?_⟩, ?_, hIP, ?_⟩
      · intro i hi
        exact hIP i (hin i hi)
      · intro i hi
        exact hout i hi
      · intro i hi
        rcases List.mem_append.mp hi with hi1 | hi2
        · rcases hextra i hi1 with hn | hp
          · exact Or.inl hn
          · exact Or.inr (hIP i hp)
        · rw [List.mem_singleton.mp hi2]
          exact Or.inr (hIP gidx hplaced)
      · intro a i hi
        unfold TypingResult.attrList at hi ⊢
        split_ifs at hi ⊢ <;>
          first
            | exact hi
            | exact List.mem_append_left _ hi
      · rw [hattr]
        unfold TypingResult.attrList
        simp

/-- Receiving a gene result into a (truthy) piece — the
`piece.add_gene_result` call followed by the piece-store update — preserves
the invariant and places the gene result inside that piece. -/
theorem addInv_setPiece {r0 rb : TypingResult} {gidx pidx : Nat} {p' : LocusPiece}
    {g : GeneResult}
    (hInvB : AddInv r0 rb)
    (hplt : pidx < r0.pieces_store.length)
    (hgp : (r0.geneAt gidx).piece = some pidx)
    (hgt : g.gene_type = (r0.geneAt gidx).gene_type)
    (hgs : g.start = (r0.geneAt gidx).start)
    (hge : g.end_ = (r0.geneAt gidx).end_)
    (hadd : (rb.pieceAt pidx).add_gene_result gidx g = .ok p') :
    AddInv r0 { rb with pieces_store := rb.pieces_store.set pidx p' } ∧
    (∀ a, ({ rb with pieces_store := rb.pieces_store.set pidx p' } : TypingResult).attrList a =
      rb.attrList a) ∧
    (∀ i, InsidePlaced r0 rb i →
      InsidePlaced r0 { rb with pieces_store := rb.pieces_store.set pidx p' } i) ∧
    InsidePlaced r0 { rb with pieces_store := rb.pieces_store.set pidx p' } gidx := by
  obtain ⟨⟨hlen, hframe, hpos, hcover⟩, hin, hout, hextra⟩ := hInvB
  have hLP := locusPiece_add_ok hadd
  have hpltB : pidx < rb.pieces_store.length := by omega
  have hpAt2 : ∀ q, ({ rb with pieces_store := rb.pieces_store.set pidx p' } :
      TypingResult).pieceAt q =
      if pidx = q ∧ pidx < rb.pieces_store.length then p' else rb.pieceAt q := by
    intro q
    unfold TypingResult.pieceAt
    exact getD_set rb.pieces_store pidx q p' default
  have hsup : ∀ gt', ∀ i ∈ pieceListFor (rb.pieceAt pidx) gt', i ∈ pieceListFor p' gt' := by
    intro gt' i hi
    unfold pieceListFor at hi ⊢
    rcases hLP.2.2.2.2 with ⟨-, he, hu, hx⟩ | ⟨-, he, hu, hx⟩ | ⟨-, he, hu, hx⟩ <;>
      split_ifs at hi ⊢ <;>
        simp only [he, hu, hx, List.mem_append, List.mem_singleton] <;>
          first
            | exact Or.inl hi
            | exact hi
  have hsplit : ∀ i, i ∈ p'.expected_genes ++ p'.unexpected_genes ++ p'.extra_genes →
      i ∈ (rb.pieceAt pidx).expected_genes ++ (rb.pieceAt pidx).unexpected_genes ++
        (rb.pieceAt pidx).extra_genes ∨ i = gidx := by
    intro i hi
    rcases hLP.2.2.2.2 with ⟨-, he, hu, hx⟩ | ⟨-, he, hu, hx⟩ | ⟨-, he, hu, hx⟩ <;>
      · rw [he, hu, hx] at hi
        simp only [List.mem_append, List.mem_singleton] at hi ⊢
        tauto
  have hmono : ∀ q, q < r0.pieces_store.length →
      (({ rb with pieces_store := rb.pieces_store.set pidx p' } :
          TypingResult).pieceAt q).start ≤ (rb.pieceAt q).start ∧
      (rb.pieceAt q).end_ ≤ (({ rb with pieces_store := rb.pieces_store.set pidx p' } :
          TypingResult).pieceAt q).end_ ∧
      ∀ gt', ∀ i ∈ pieceListFor (rb.pieceAt q) gt',
        i ∈ pieceListFor ((({ rb with pieces_store := rb.pieces_store.set pidx p' } :
          TypingResult).pieceAt q)) gt' := by
    intro q hq
    rw [hpAt2 q]
    by_cases hc : pidx = q ∧ pidx < rb.pieces_store.length
    · obtain ⟨rfl, -⟩ := hc
      rw [if_pos ⟨rfl, hpltB⟩]
      exact ⟨hLP.1, hLP.2.2.1, hsup⟩
    · rw [if_neg hc]
      exact ⟨le_refl _, le_refl _, fun _ _ hi => hi⟩
  have hplace2 : InsidePlaced r0
      { rb with pieces_store := rb.pieces_store.set pidx p' } gidx := by
    refine ⟨pidx, hgp, hplt, ?_, ?_, ?_⟩
    · rw [hpAt2 pidx, if_pos ⟨rfl, hpltB⟩]
      rcases hLP.2.2.2.2 with ⟨hg3, he, -, -⟩ | ⟨hg3, -, hu, -⟩ | ⟨hg3, -, -, hx⟩
      · rw [show (r0.geneAt gidx).gene_type = "expected_genes" from hgt ▸ hg3]
        unfold pieceListFor
        simp [he]
      · rw [show (r0.geneAt gidx).gene_type = "unexpected_genes" from hgt ▸ hg3]
        unfold pieceListFor
        simp [hu]
      · rw [show (r0.geneAt gidx).gene_type = "extra_genes" from hgt ▸ hg3]
        unfold pieceListFor
        simp [hx]
    · rw [hpAt2 pidx, if_pos ⟨rfl, hpltB⟩, ← hgs]
      exact hLP.2.1
    · rw [hpAt2 pidx, if_pos ⟨rfl, hpltB⟩, ← hge]
      exact hLP.2.2.2.1
  refine ⟨⟨⟨?_, ?_, ?_, ?_⟩, ?_, ?_, ?_⟩, ?_, ?_, hplace2⟩
  · show (rb.pieces_store.set pidx p').length = r0.pieces_store.length
    rw [List.length_set]
    exact hlen
  · intro j
    exact hframe j
  · intro q hq
    rw [hpAt2 q]
    by_cases hc : pidx = q ∧ pidx < rb.pieces_store.length
    · obtain ⟨rfl, -⟩ := hc
      rw [if_pos ⟨rfl, hpltB⟩]
      have h0 := hpos pidx hplt
      have h1 := hLP.1
      have h2 := hLP.2.2.1
      omega
    · rw [if_neg hc]
      exact hpos q hq
  · intro q hq i hi
    rw [hpAt2 q] at hi ⊢
    by_cases hc : pidx = q ∧ pidx < rb.pieces_store.length
    · obtain ⟨rfl, -⟩ := hc
      rw [if_pos ⟨rfl, hpltB⟩] at hi ⊢
      rcases hsplit i hi with hold | rfl
      · have hb := hcover pidx hplt i hold
        have h1 := hLP.1
        have h2 := hLP.2.2.1
        exact ⟨le_trans h1 hb.1, le_trans hb.2 h2⟩
      · exact ⟨hgs ▸ hLP.2.1, hge ▸ hLP.2.2.2.1⟩
    · rw [if_neg hc] at hi ⊢
      exact hcover q hq i hi
  · intro i hi
    exact insidePlaced_mono hmono i (hin i hi)
  · intro i hi
    exact hout i hi
  · intro i hi
    rcases hextra i hi with hn | hp
    · exact Or.inl hn
    · exact Or.inr (insidePlaced_mono hmono i hp)
  · intro a
    rfl
  · exact insidePlaced_mono hmono

/-- A single successful `add_gene_result` call preserves the invariant, only
grows the result lists and piece placements, and files the added gene result
as the claim describes: a gene result with a piece goes to its
`gene_type`-selected list (suffixed for expected/unexpected kinds) and into
its piece. -/
theorem add_gene_result_step {r0 r r' : TypingResult} {gidx : Nat}
    (hInv : AddInv r0 r)
    (hvalid : ∀ pidx, (r0.geneAt gidx).piece = some pidx → pidx < r0.pieces_store.length)
    (hok : r.add_gene_result gidx = .ok r') :
    AddInv r0 r' ∧
    (∀ a, ∀ i ∈ r.attrList a, i ∈ r'.attrList a) ∧
    (∀ i, InsidePlaced r0 r i → InsidePlaced r0 r' i) ∧
    (∀ pidx, (r0.geneAt gidx).piece = some pidx →
      gidx ∈ r'.attrList ((r0.geneAt gidx).gene_type ++
        if startsWithGeneKind (r0.geneAt gidx).gene_type then "_inside_locus" else "") ∧
      InsidePlaced r0 r' gidx) := by
  have hInv1 := addInv_setNR gidx hInv
  obtain ⟨hpe, hte, hse, hee⟩ := hInv.1.2.1 gidx
  have hattr1 : ∀ a, (r.setNeighbourRight gidx).attrList a = r.attrList a := by
    intro a
    have hf := setNR_fields r gidx
    unfold TypingResult.attrList
    rw [hf.2.1, hf.2.2.1, hf.2.2.2.1, hf.2.2.2.2.1, hf.2.2.2.2.2]
  have hIP1 : ∀ i, InsidePlaced r0 r i → InsidePlaced r0 (r.setNeighbourRight gidx) i := by
    intro i hi
    unfold InsidePlaced at hi ⊢
    rw [show (r.setNeighbourRight gidx).pieceAt = r.pieceAt from
      funext fun q => by unfold TypingResult.pieceAt; rw [(setNR_fields r gidx).1]]
    exact hi
  simp only [TypingResult.add_gene_result] at hok
  cases hp0 : (r0.geneAt gidx).piece with
  | none =>
    rw [hpe, hp0] at hok
    dsimp only at hok
    rw [hte] at hok
    obtain ⟨hA, hB, hC, -⟩ := addInv_append_outside hInv1 hp0 hok
    refine ⟨hA, ?_, ?_, ?_⟩
    · intro a i hi
      apply hB a i
      rw [hattr1 a]
      exact hi
    · intro i hi
      exact hC i (hIP1 i hi)
    · intro pidx hsome
      exact absurd hsome (by simp)
  | some pidx =>
    have hplt := hvalid pidx hp0
    rw [hpe, hp0] at hok
    dsimp only at hok
    have hpos1 : 0 < ((r.setNeighbourRight gidx).pieceAt pidx).end_ -
        ((r.setNeighbourRight gidx).pieceAt pidx).start := hInv1.1.2.2.1 pidx hplt
    rw [if_neg (by omega), if_neg (by omega)] at hok
    cases hadd : ((r.setNeighbourRight gidx).pieceAt pidx).add_gene_result gidx (r.geneAt gidx)
      with
    | error e =>
      rw [hadd] at hok
      simp [Bind.bind, Except.bind] at hok
    | ok p' =>
      rw [hadd] at hok
      simp only [Bind.bind, Except.bind] at hok
      rw [hte] at hok
      obtain ⟨hA2, hAttr2, hM2, hPl2⟩ := addInv_setPiece hInv1 hplt hp0 hte hse hee hadd
      obtain ⟨hA3, hB3, hC3, hD3⟩ := addInv_append_inside hA2 hPl2 hok
      refine ⟨hA3, ?_, ?_, ?_⟩
      · intro a i hi
        apply hB3 a i
        rw [hAttr2 a, hattr1 a]
        exact hi
      · intro i hi
        exact hC3 i (hM2 i (hIP1 i hi))
      · intro pidx' hsome
        cases Option.some.inj hsome
        exact ⟨hD3, hC3 gidx hPl2⟩

theorem addAll_invariant_aux (r0 : TypingResult) :
    ∀ (calls : List Nat) (r r' : TypingResult),
      AddInv r0 r →
      (∀ i ∈ calls, ∀ pidx, (r0.geneAt i).piece = some pidx →
        pidx < r0.pieces_store.length) →
      r.addAll calls = .ok r' →
      AddInv r0 r' ∧
      (∀ a, ∀ i ∈ r.attrList a, i ∈ r'.attrList a) ∧
      (∀ i, InsidePlaced r0 r i → InsidePlaced r0 r' i) ∧
      (∀ i ∈ calls, ∀ pidx, (r0.geneAt i).piece = some pidx →
        i ∈ r'.attrList ((r0.geneAt i).gene_type ++
          if startsWithGeneKind (r0.geneAt i).gene_type then "_inside_locus" else "") ∧
        InsidePlaced r0 r' i) := by
  intro calls
  induction calls with
  | nil =>
    intro r r' hInv hv hok
    unfold TypingResult.addAll at hok
    rw [List.foldlM_nil] at hok
    cases hok
    exact ⟨hInv, fun a i hi => hi, fun i hi => hi, by simp⟩
  | cons c cs ih =>
    intro r r' hInv hv hok
    unfold TypingResult.addAll at hok
    rw [List.foldlM_cons] at hok
    cases hstep : r.add_gene_result c with
    | error e =>
      rw [hstep] at hok
      simp [Bind.bind, Except.bind] at hok
    | ok r1 =>
      rw [hstep] at hok
      simp only [Bind.bind, Except.bind] at hok
      obtain ⟨hA, hB, hC, hD⟩ :=
        add_gene_result_step hInv (hv c (List.mem_cons_self c cs)) hstep
      obtain ⟨hA', hB', hC', hD'⟩ :=
        ih r1 r' hA (fun i hi => hv i (List.mem_cons_of_mem c hi)) hok
      refine ⟨hA', ?_, ?_, ?_⟩
      · intro a i hi
        exact hB' a i (hB a i hi)
      · intro i hi
        exact hC' i (hC i hi)
      · intro i hi pidx hp
        rcases List.mem_cons.mp hi with rfl | hi2
        · obtain ⟨hm, hp2⟩ := hD pidx hp
          exact ⟨hB' _ i hm, hC' i hp2⟩
        · exact hD' i hi2 pidx hp

/-- C8 amended: start from a `TypingResult` with empty gene-result lists whose
pieces all have `start < end` and empty member lists, and run any sequence of
`add_gene_result` calls whose gene results reference in-range pieces.  Then
([AddInv]) every gene result in an `*_inside_locus` list is placed inside its
piece (it sits in `piece.<gene_type>` and the piece bounds cover it), every
gene result in a `*_outside_locus` list has `piece = None`, and every
`extra_genes` entry either has `piece = None` or — *unlike the original
claim* — keeps its non-`None` piece and sits in `piece.extra_genes`; moreover
every added gene result with a piece lands both in the result list selected by
its `gene_type` (with the `_inside_locus` suffix for expected/unexpected
kinds) and inside its piece with the bounds expanded over it. -/
theorem add_gene_result_invariant (r0 r' : TypingResult) (calls : List Nat)
    (hempty : r0.expected_genes_inside_locus = [] ∧ r0.unexpected_genes_inside_locus = [] ∧
      r0.expected_genes_outside_locus = [] ∧ r0.unexpected_genes_outside_locus = [] ∧
      r0.extra_genes = [])
    (hpieces : ∀ p ∈ r0.pieces_store, 0 < p.end_ - p.start ∧ p.expected_genes = [] ∧
      p.unexpected_genes = [] ∧ p.extra_genes = [])
    (hvalid : ∀ i ∈ calls, ∀ pidx, (r0.geneAt i).piece = some pidx →
      pidx < r0.pieces_store.length)
    (hok : r0.addAll calls = .ok r') :
    AddInv r0 r' ∧
    (∀ i ∈ calls, ∀ pidx, (r0.geneAt i).piece = some pidx →
      i ∈ r'.attrList ((r0.geneAt i).gene_type ++
        if startsWithGeneKind (r0.geneAt i).gene_type then "_inside_locus" else "") ∧
      InsidePlaced r0 r' i) := by
  have hbase : AddInv r0 r0 := by
    refine ⟨⟨rfl, fun j => ⟨rfl, rfl, rfl, rfl⟩, ?_, ?_⟩, ?_, ?_, ?_⟩
    · intro pidx hp
      exact (hpieces _ (getD_mem r0.pieces_store pidx default hp)).1
    · intro pidx hp i hi
      have h := hpieces _ (getD_mem r0.pieces_store pidx default hp)
      rw [show (r0.pieceAt pidx).expected_genes = [] from h.2.1,
        show (r0.pieceAt pidx).unexpected_genes = [] from h.2.2.1,
        show (r0.pieceAt pidx).extra_genes = [] from h.2.2.2] at hi
      simp at hi
    · intro i hi
      rw [hempty.1, hempty.2.1] at hi
      simp at hi
    · intro i hi
      rw [hempty.2.2.1, hempty.2.2.2.1] at hi
      simp at hi
    · intro i hi
      rw [hempty.2.2.2.2] at hi
      simp at hi
  obtain ⟨hA, -, -, hD⟩ := addAll_invariant_aux r0 calls r0 r' hbase hvalid hok
  exact ⟨hA, hD⟩

/-- A fresh result owning one extra gene result that overlaps the single
piece (so the pipeline's piece lookup attached the piece to it). -/
def extraPieceInit : TypingResult :=
  let gene : Gene := { name := "Extra_1", strand := "+", length := 10 }
  let piece : LocusPiece :=
    { id := "ctg", start := 0, end_ := 100, strand := "unknown", sequence_ := "",
      expected_genes := [], unexpected_genes := [], extra_genes := [] }
  let gr : GeneResult :=
    { id := "ctg", gene := gene, start := 10, end_ := 20, strand := "+",
      dna_seq := "", protein_seq := "", partialFlag := false, below_threshold := false,
      phenotype := "present", gene_type := "extra_genes", percent_identity := 0,
      percent_coverage := 0, piece := some 0, neighbour_left := none,
      neighbour_right := none }
  { sample_name := "s",
    best_match := { name := "L1", genes := [], phenotypes := [], type_label := "L1" },
    pieces_store := [piece], result_pieces := [], gene_store := [gr],
    expected_genes_inside_locus := [], expected_genes_outside_locus := [],
    unexpected_genes_inside_locus := [], unexpected_genes_outside_locus := [],
    extra_genes := [], missing_genes := [],
    percent_identity_memo := none, percent_coverage_memo := none, phenotype_memo := none,
    problems_memo := none, confidence_memo := none }

/-- C8 counterexample: an `add_gene_result` call with an extra gene result
carrying a (truthy) piece leaves it in the result's `extra_genes` list *with
its piece* (`some 0`, not `None`), refuting the claim that every
`extra_genes` entry has `piece == None`. -/
theorem extra_gene_with_piece_counterexample :
    (extraPieceInit.addAll [0]).map
      (fun st => (st.extra_genes, st.extra_genes.map fun i => (st.geneAt i).piece)) =
      .ok ([0], [some 0]) := by
  rfl

/-- [extraPieceInit] with one expected gene result instead. -/
def expectedPieceInit : TypingResult :=
  let gene : Gene := { name := "L1_1", strand := "+", length := 10 }
  let piece : LocusPiece :=
    { id := "ctg", start := 0, end_ := 100, strand := "unknown", sequence_ := "",
      expected_genes := [], unexpected_genes := [], extra_genes := [] }
  let gr : GeneResult :=
    { id := "ctg", gene := gene, start := 10, end_ := 20, strand := "+",
      dna_seq := "", protein_seq := "", partialFlag := false, below_threshold := false,
      phenotype := "present", gene_type := "expected_genes", percent_identity := 0,
      percent_coverage := 0, piece := some 0, neighbour_left := none,
      neighbour_right := none }
  { sample_name := "s",
    best_match := { name := "L1", genes := [], phenotypes := [], type_label := "L1" },
    pieces_store := [piece], result_pieces := [], gene_store := [gr],
    expected_genes_inside_locus := [], expected_genes_outside_locus := [],
    unexpected_genes_inside_locus := [], unexpected_genes_outside_locus := [],
    extra_genes := [], missing_genes := [],
    percent_identity_memo := none, percent_coverage_memo := none, phenotype_memo := none,
    problems_memo := none, confidence_memo := none }

/-- The state [expectedPieceInit] reaches after adding its gene result. -/
def expectedPieceFinal : TypingResult :=
  let piece : LocusPiece :=
    { id := "ctg", start := 0, end_ := 100, strand := "unknown", sequence_ := "",
      expected_genes := [0], unexpected_genes := [], extra_genes := [] }
  { expectedPieceInit with pieces_store := [piece], expected_genes_inside_locus := [0] }

/-- Witness for [add_gene_result_invariant] at a concrete call sequence. -/
theorem add_gene_result_invariant_witness :
    AddInv expectedPieceInit expectedPieceFinal ∧
    0 ∈ expectedPieceFinal.attrList "expected_genes_inside_locus" := by
  have hvalid : ∀ i ∈ [0], ∀ pidx, (expectedPieceInit.geneAt i).piece = some pidx →
      pidx < expectedPieceInit.pieces_store.length := by
    intro i hi pidx hp
    have h0 : pidx = 0 :=
      (Option.some.inj ((rfl : (expectedPieceInit.geneAt 0).piece = some 0).symm.trans
        (by rw [← List.mem_singleton.mp hi]; exact hp))).symm
    rw [h0]
    decide
  have h := add_gene_result_invariant expectedPieceInit expectedPieceFinal [0]
    ⟨rfl, rfl, rfl, rfl, rfl⟩ (by decide) hvalid (by rfl)
  refine ⟨h.1, ?_⟩
  have hm := (h.2 0 (by simp) 0 rfl).1
  exact hm

/-- `GeneResult.__repr__`:
`f"{self.gene.name} {self.id}:{self.start}-{self.end}{self.strand}"`. -/
def GeneResult.reprStr (g : GeneResult) : String :=
  g.gene.name ++ " " ++ g.id ++ ":" ++ toString g.start ++ "-" ++ toString g.end_ ++ g.strand

/-- The serialized form of a locus piece (`LocusPiece.format('json')`): each
value is emitted as a string; the numeric fields are carried as their parsed
values, the string/parse layer being exact for them. -/
structure LocusPieceDict where
  id : String
  start : Int
  end_ : Int
  strand : String
  sequence_ : String
deriving DecidableEq

/-- The serialized form of a gene result (`GeneResult.format('json')`).
`piece`, `neighbour_left` and `neighbour_right` are the stringified `repr`
keys, the empty string meaning absent.  Numbers are carried as their parsed
values (Python serializes them via `str` and parses them back via
`int`/`float`, an exact round trip). -/
structure GeneResultDict where
  id : String
  start : Int
  end_ : Int
  strand : String
  dna_seq : String
  protein_seq : String
  partialFlag : Bool
  below_threshold : Bool
  phenotype : String
  gene_type : String
  percent_identity : ℚ
  percent_coverage : ℚ
  gene : String
  piece : String
  neighbour_left : String
  neighbour_right : String
deriving DecidableEq

instance : Inhabited GeneResultDict :=
  ⟨⟨"", 0, 0, "", "", "", false, false, "", "", 0, 0, "", "", "", ""⟩⟩

/-- The serialized form of a typing result (`TypingResult.format('json')`). -/
structure TypingResultDict where
  sample_name : String
  best_match : String
  confidence : String
  phenotype : String
  problems : String
  percent_identity : ℚ
  percent_coverage : ℚ
  missing_genes : List String
  pieces : List LocusPieceDict
  expected_genes_inside_locus : List GeneResultDict
  expected_genes_outside_locus : List GeneResultDict
  unexpected_genes_inside_locus : List GeneResultDict
  unexpected_genes_outside_locus : List GeneResultDict
  extra_genes : List GeneResultDict
deriving DecidableEq

/-- The serialized gene results in the iteration order of
`TypingResult.from_dict` (src/kaptive/typing.py lines 164-166). -/
def TypingResultDict.chain (d : TypingResultDict) : List GeneResultDict :=
  d.expected_genes_inside_locus ++ d.unexpected_genes_inside_locus ++
    d.expected_genes_outside_locus ++ d.unexpected_genes_outside_locus ++ d.extra_genes

/-- `LocusPiece.from_dict`: rebuild a piece from its serialized form (empty
gene lists). -/
def LocusPiece.from_dict (d : LocusPieceDict) : LocusPiece :=
  { id := d.id, start := d.start, end_ := d.end_, strand := d.strand,
    sequence_ := d.sequence_, expected_genes := [], unexpected_genes := [], extra_genes := [] }

/-- A Python dict built key by key (`d[k] = v` in order), keyed by strings
with `Nat` payloads (indices into a store). -/
def buildKeyMapAux : List String → Nat → List (String × Nat) → List (String × Nat)
  | [], _, m => m
  | k :: ks, i, m => buildKeyMapAux ks (i + 1) (pyDictInsert m k i)

/-- The keyed map `{x.__repr__(): index of x}` over a list of repr keys. -/
def buildKeyMap (keys : List String) : List (String × Nat) :=
  buildKeyMapAux keys 0 []

/-- `dict.values()`: the payloads in key-insertion order. -/
def pyDictValues {α : Type} (d : List (String × α)) : List α := d.map (·.2)

/-- The keyed map of constructed pieces
(`pieces = {i.__repr__(): i for i in self.pieces}`). -/
def TypingResultDict.pieceKeyMap (d : TypingResultDict) : List (String × Nat) :=
  buildKeyMap ((d.pieces.map LocusPiece.from_dict).map LocusPiece.reprStr)

/-- `db.genes.get(name)` then `db.extra_genes.get(name)`. -/
def Database.lookupGene (db : Database) (name : String) : Option Gene :=
  match pyDictGet db.genes name with
  | some g => some g
  | none => pyDictGet db.extra_genes name

/-- `GeneResult.from_dict` as invoked by `TypingResult.from_dict`
(src/kaptive/typing.py lines 167-169 and 341-348): resolve the gene in the
database (error if absent), resolve `piece` by looking the serialized key up
in the piece map; the serialized `neighbour_left`/`neighbour_right` keys are
*not read* — `GeneResult.from_dict` never touches them, so both pointers
start as `None`. -/
def GeneResult.from_dict (db : Database) (pieceMap : List (String × Nat))
    (gd : GeneResultDict) : Except PyErr GeneResult :=
  match db.lookupGene gd.gene with
  | none => .error .typingResultError
  | some gene =>
    .ok
      { id := gd.id, gene := gene, start := gd.start, end_ := gd.end_, strand := gd.strand,
        dna_seq := gd.dna_seq, protein_seq := gd.protein_seq, partialFlag := gd.partialFlag,
        below_threshold := gd.below_threshold, phenotype := gd.phenotype,
        gene_type := gd.gene_type, percent_identity := gd.percent_identity,
        percent_coverage := gd.percent_coverage, piece := pyDictGet pieceMap gd.piece,
        neighbour_left := none, neighbour_right := none }

/-- The key used by the neighbour-resolution lines:
`gene_result.neighbour_left.__repr__()` — `repr(None)` is the string
`"None"`. -/
def TypingResult.neighbourKey (r : TypingResult) (o : Option Nat) : String :=
  match o with
  | some j => (r.geneAt j).reprStr
  | none => "None"

/-- Lines 174-175 of src/kaptive/typing.py:
`gene_result.neighbour_left = gene_results.get(gene_result.neighbour_left.__repr__())`
and likewise for the right neighbour — the lookup key is the repr of the
*current* (never initialised, hence `None`) pointers, not the serialized
keys. -/
def TypingResult.resolvedGene (r : TypingResult) (geneMap : List (String × Nat))
    (gidx : Nat) : GeneResult :=
  let g := r.geneAt gidx
  let g := { g with neighbour_left := pyDictGet geneMap (r.neighbourKey g.neighbour_left) }
  { g with neighbour_right := pyDictGet geneMap (r.neighbourKey g.neighbour_right) }

def TypingResult.resolveNeighbours (r : TypingResult) (geneMap : List (String × Nat))
    (gidx : Nat) : TypingResult :=
  { r with gene_store := r.gene_store.set gidx (r.resolvedGene geneMap gidx) }

/-- `TypingResult.from_dict` (src/kaptive/typing.py lines 149-177): resolve
the best match, restore the memoised fields, rebuild the pieces and their
keyed map, rebuild the gene results (keyed map by repr, later duplicates
overwriting), then resolve neighbours and file each gene result through
`add_gene_result`. -/
def TypingResult.from_dict (d : TypingResultDict) (db : Database) :
    Except PyErr TypingResult :=
  match pyDictGet db.loci d.best_match with
  | none => .error .typingResultError
  | some best_match => do
    let pieces := d.pieces.map LocusPiece.from_dict
    let grs ← d.chain.mapM (GeneResult.from_dict db d.pieceKeyMap)
    let geneMap := buildKeyMap (grs.map GeneResult.reprStr)
    let rInit : TypingResult :=
      { sample_name := d.sample_name, best_match := best_match, pieces_store := pieces,
        result_pieces := List.range pieces.length, gene_store := grs,
        expected_genes_inside_locus := [], expected_genes_outside_locus := [],
        unexpected_genes_inside_locus := [], unexpected_genes_outside_locus := [],
        extra_genes := [], missing_genes := d.missing_genes,
        percent_identity_memo := some d.percent_identity,
        percent_coverage_memo := some d.percent_coverage,
        phenotype_memo := some d.phenotype, problems_memo := some d.problems,
        confidence_memo := some d.confidence }
    (pyDictValues geneMap).foldlM
      (fun r gidx => (r.resolveNeighbours geneMap gidx).add_gene_result gidx) rInit

/-- The `percent_identity` computation (src/kaptive/typing.py lines 93-98):
mean of the expected-inside gene results' identities, 0 when there are
none. -/
def TypingResult.percentIdentityOf (r : TypingResult) : ℚ :=
  if r.expected_genes_inside_locus = [] then 0
  else
    (r.expected_genes_inside_locus.map fun i => (r.geneAt i).percent_identity).sum /
      r.expected_genes_inside_locus.length

/-- The `percent_identity` property: memo or computed. -/
def TypingResult.percentIdentityProp (r : TypingResult) : ℚ :=
  r.percent_identity_memo.getD r.percentIdentityOf

/-- The `percent_coverage` computation (src/kaptive/typing.py lines 100-105):
total aligned span of expected-inside gene results over total reference gene
length, ×100; 0 when there are none. -/
def TypingResult.percentCoverageOf (r : TypingResult) : ℚ :=
  if r.expected_genes_inside_locus = [] then 0
  else
    (r.expected_genes_inside_locus.map fun i =>
        ((r.geneAt i).end_ - (r.geneAt i).start : ℚ)).sum /
      (r.best_match.genes.map fun p => (p.2.length : ℚ)).sum * 100

/-- The `percent_coverage` property: memo or computed. -/
def TypingResult.percentCoverageProp (r : TypingResult) : ℚ :=
  r.percent_coverage_memo.getD r.percentCoverageOf

/-- The `phenotype` computation (src/kaptive/typing.py lines 107-119):
collect the (gene name, phenotype) pairs of expected and extra gene results,
then return the label of the first catalogue entry whose gene set is wholly
present, falling back to the type label. -/
def TypingResult.phenotypeOf (r : TypingResult) : String :=
  let pairs :=
    ((r.allGeneIndices.filter fun i =>
        (r.geneAt i).gene_type == "expected_genes" || (r.geneAt i).gene_type == "extra_genes").map
      fun i => ((r.geneAt i).gene.name, (r.geneAt i).phenotype)).dedup
  match r.best_match.phenotypes.find? fun gp =>
      (gp.1.filter fun x => pairs.contains x).length == gp.1.length with
  | some gp => gp.2
  | none => r.best_match.type_label

/-- The `phenotype` property: memo or computed. -/
def TypingResult.phenotypeProp (r : TypingResult) : String :=
  r.phenotype_memo.getD r.phenotypeOf

/-- The `confidence` property (src/kaptive/typing.py lines 132-134). -/
def TypingResult.confidenceProp (r : TypingResult) : String :=
  r.confidence_memo.getD "Not calculated"

/-- `LocusPiece.format('json')`. -/
def LocusPiece.to_dict (p : LocusPiece) : LocusPieceDict :=
  { id := p.id, start := p.start, end_ := p.end_, strand := p.strand,
    sequence_ := p.sequence_ }

/-- `GeneResult.format('json')` for the gene result stored at index `i`: the
`piece` and neighbour keys are the reprs of the referenced objects, `''` when
absent. -/
def TypingResult.geneToDict (r : TypingResult) (i : Nat) : GeneResultDict :=
  let g := r.geneAt i
  { id := g.id, start := g.start, end_ := g.end_, strand := g.strand, dna_seq := g.dna_seq,
    protein_seq := g.protein_seq, partialFlag := g.partialFlag,
    below_threshold := g.below_threshold, phenotype := g.phenotype, gene_type := g.gene_type,
    percent_identity := g.percent_identity, percent_coverage := g.percent_coverage,
    gene := g.gene.name,
    piece := match g.piece with | some p => (r.pieceAt p).reprStr | none => "",
    neighbour_left := match g.neighbour_left with | some j => (r.geneAt j).reprStr | none => "",
    neighbour_right :=
      match g.neighbour_right with | some j => (r.geneAt j).reprStr | none => "" }

/-- `TypingResult.format('json')` (src/kaptive/typing.py lines 209-220). -/
def TypingResult.serialize (r : TypingResult) : TypingResultDict :=
  { sample_name := r.sample_name, best_match := r.best_match.name,
    confidence := r.confidenceProp, phenotype := r.phenotypeProp, problems := r.problemsProp,
    percent_identity := r.percentIdentityProp, percent_coverage := r.percentCoverageProp,
    missing_genes := r.missing_genes,
    pieces := r.result_pieces.map fun i => (r.pieceAt i).to_dict,
    expected_genes_inside_locus := r.expected_genes_inside_locus.map r.geneToDict,
    expected_genes_outside_locus := r.expected_genes_outside_locus.map r.geneToDict,
    unexpected_genes_inside_locus := r.unexpected_genes_inside_locus.map r.geneToDict,
    unexpected_genes_outside_locus := r.unexpected_genes_outside_locus.map r.geneToDict,
    extra_genes := r.extra_genes.map r.geneToDict }

theorem colon_mem_reprStr (g : GeneResult) : (':') ∈ (GeneResult.reprStr g).data := by
  unfold GeneResult.reprStr
  have h1 : (':') ∈ (g.gene.name ++ " " ++ g.id ++ ":").data := by
    rw [String.data_append]
    exact List.mem_append_right _ (by decide)
  have h2 : (':') ∈ (g.gene.name ++ " " ++ g.id ++ ":" ++ toString g.start).data := by
    rw [String.data_append]
    exact List.mem_append_left _ h1
  have h3 : (':') ∈ (g.gene.name ++ " " ++ g.id ++ ":" ++ toString g.start ++ "-").data := by
    rw [String.data_append]
    exact List.mem_append_left _ h2
  have h4 : (':') ∈
      (g.gene.name ++ " " ++ g.id ++ ":" ++ toString g.start ++ "-" ++ toString g.end_).data := by
    rw [String.data_append]
    exact List.mem_append_left _ h3
  rw [String.data_append]
  exact List.mem_append_left _ h4

/-- No gene result's `repr` is the string `"None"` (it always contains a
colon), so the neighbour-resolution lookups always miss. -/
theorem reprStr_ne_none (g : GeneResult) : GeneResult.reprStr g ≠ "None" := by
  intro h
  have hc := colon_mem_reprStr g
  rw [h] at hc
  exact absurd hc (by decide)

theorem mem_pyDictInsert {α : Type} {m : List (String × α)} {k : String} {v : α}
    {kv : String × α} (h : kv ∈ pyDictInsert m k v) : kv.1 = k ∨ kv ∈ m := by
  unfold pyDictInsert at h
  split_ifs at h
  · obtain ⟨p, hp, hpe⟩ := List.mem_map.mp h
    by_cases hc : p.1 = k
    · rw [if_pos hc] at hpe
      left
      rw [← hpe]
    · rw [if_neg hc] at hpe
      right
      rw [← hpe]
      exact hp
  · rcases List.mem_append.mp h with h | h
    · exact Or.inr h
    · left
      rw [List.mem_singleton.mp h]

theorem buildKeyMapAux_keys {keys : List String} :
    ∀ (i : Nat) (m : List (String × Nat)) (kv : String × Nat),
      kv ∈ buildKeyMapAux keys i m → kv.1 ∈ keys ∨ kv ∈ m := by
  induction keys with
  | nil =>
    intro i m kv h
    exact Or.inr h
  | cons k ks ih =>
    intro i m kv h
    unfold buildKeyMapAux at h
    rcases ih (i + 1) _ kv h with h1 | h1
    · exact Or.inl (List.mem_cons_of_mem k h1)
    · rcases mem_pyDictInsert h1 with h2 | h2
      · left
        rw [h2]
        exact List.mem_cons_self k ks
      · exact Or.inr h2

theorem pyDictGet_none {α : Type} {m : List (String × α)} {key : String}
    (h : ∀ kv ∈ m, kv.1 ≠ key) : pyDictGet m key = none := by
  unfold pyDictGet
  have hf : m.find? (fun p => p.1 == key) = none :=
    List.find?_eq_none.mpr fun x hx => by simpa using h x hx
  rw [hf]
  rfl

/-- The `"None"` lookup in the gene-result map misses. -/
theorem geneMap_get_none (grs : List GeneResult) :
    pyDictGet (buildKeyMap (grs.map GeneResult.reprStr)) "None" = none := by
  apply pyDictGet_none
  intro kv hkv
  rcases buildKeyMapAux_keys 0 [] kv hkv with h | h
  · obtain ⟨g, -, hg⟩ := List.mem_map.mp h
    rw [← hg]
    exact reprStr_ne_none g
  · simp at h

theorem geneResult_from_dict_fields {db : Database} {pieceMap : List (String × Nat)}
    {gd : GeneResultDict} {g : GeneResult}
    (h : GeneResult.from_dict db pieceMap gd = .ok g) :
    g.piece = pyDictGet pieceMap gd.piece ∧ g.neighbour_left = none ∧
      g.neighbour_right = none := by
  unfold GeneResult.from_dict at h
  cases hl : db.lookupGene gd.gene with
  | none =>
    rw [hl] at h
    simp at h
  | some gene =>
    rw [hl] at h
    cases h
    exact ⟨rfl, rfl, rfl⟩

theorem mapM_ok_pointwise {α β : Type} [Inhabited α] [Inhabited β]
    (f : α → Except PyErr β) :
    ∀ (l : List α) (res : List β), l.mapM f = .ok res →
      res.length = l.length ∧
      ∀ k, k < l.length → f (l.getD k default) = .ok (res.getD k default) := by
  intro l
  induction l with
  | nil =>
    intro res h
    rw [List.mapM_nil] at h
    cases h
    exact ⟨rfl, fun k hk => by simp at hk⟩
  | cons a t ih =>
    intro res h
    rw [List.mapM_cons] at h
    cases hfa : f a with
    | error e =>
      rw [hfa] at h
      simp [Bind.bind, Except.bind] at h
    | ok b =>
      rw [hfa] at h
      simp only [Bind.bind, Except.bind] at h
      cases hft : t.mapM f with
      | error e =>
        rw [hft] at h
        simp at h
      | ok bs =>
        rw [hft] at h
        simp only [pure, Except.pure] at h
        cases h
        obtain ⟨hlen, hpt⟩ := ih bs hft
        refine ⟨by simp [hlen], ?_⟩
        intro k hk
        cases k with
        | zero => exact hfa
        | succ m =>
          simp only [List.getD_cons_succ]
          exact hpt m (by simpa using hk)

theorem set_getD_self {α : Type} : ∀ (l : List α) (i : Nat) (d : α),
    l.set i (l.getD i d) = l := by
  intro l
  induction l with
  | nil => intro i d; rfl
  | cons a t ih =>
    intro i d
    cases i with
    | zero => rfl
    | succ m =>
      show a :: t.set m (t.getD m d) = a :: t
      rw [ih m d]

/-- When a gene result's neighbour pointers are both `None`, the resolution
lines look up `repr(None) = "None"`, miss, and leave both pointers `None`:
the whole step is the identity. -/
theorem resolveNeighbours_id {r : TypingResult} {geneMap : List (String × Nat)} {gidx : Nat}
    (hl : (r.geneAt gidx).neighbour_left = none)
    (hr : (r.geneAt gidx).neighbour_right = none)
    (hNone : pyDictGet geneMap "None" = none) :
    r.resolveNeighbours geneMap gidx = r := by
  have hgg : r.resolvedGene geneMap gidx = r.geneAt gidx := by
    simp only [TypingResult.resolvedGene]
    rcases hG : r.geneAt gidx with ⟨f1, f2, f3, f4, f5, f6, f7, f8, f9, f10, f11, f12, f13,
      f14, f15, f16⟩
    rw [hG] at hl hr
    dsimp only at hl hr ⊢
    subst hl
    subst hr
    simp only [TypingResult.neighbourKey, hNone]
  unfold TypingResult.resolveNeighbours
  rw [hgg]
  show { r with gene_store := r.gene_store.set gidx (r.gene_store.getD gidx default) } = r
  rw [set_getD_self]

/-- `add_gene_result` never touches the gene store when the added gene result
has no left neighbour. -/
theorem add_gene_result_gene_store {r r' : TypingResult} {gidx : Nat}
    (hn : (r.geneAt gidx).neighbour_left = none)
    (h : r.add_gene_result gidx = .ok r') : r'.gene_store = r.gene_store := by
  have hNR : r.setNeighbourRight gidx = r := by
    unfold TypingResult.setNeighbourRight
    rw [hn]
  simp only [TypingResult.add_gene_result] at h
  rw [hNR] at h
  cases hp : (r.geneAt gidx).piece with
  | none =>
    rw [hp] at h
    dsimp only at h
    exact (appendAttr_ok_cases h).2.1
  | some pidx =>
    rw [hp] at h
    dsimp only at h
    by_cases h1 : (r.pieceAt pidx).end_ - (r.pieceAt pidx).start < 0
    · rw [if_pos h1] at h
      exact absurd h (by simp)
    · rw [if_neg h1] at h
      by_cases h2 : (r.pieceAt pidx).end_ - (r.pieceAt pidx).start = 0
      · rw [if_pos h2] at h
        exact (appendAttr_ok_cases h).2.1
      · rw [if_neg h2] at h
        cases hadd : (r.pieceAt pidx).add_gene_result gidx (r.geneAt gidx) with
        | error e =>
          rw [hadd] at h
          simp [Bind.bind, Except.bind] at h
        | ok p' =>
          rw [hadd] at h
          simp only [Bind.bind, Except.bind] at h
          exact (appendAttr_ok_cases h).2.1

/-- The neighbour-resolution/`add_gene_result` fold of `from_dict` leaves the
gene store exactly as built (all neighbours stay `None`). -/
theorem from_dict_fold_gene_store (grs : List GeneResult)
    (hgrs : ∀ j, (grs.getD j default).neighbour_left = none ∧
      (grs.getD j default).neighbour_right = none)
    (geneMap : List (String × Nat)) (hNone : pyDictGet geneMap "None" = none) :
    ∀ (vals : List Nat) (r r' : TypingResult), r.gene_store = grs →
      vals.foldlM
        (fun r gidx => (r.resolveNeighbours geneMap gidx).add_gene_result gidx) r = .ok r' →
      r'.gene_store = grs := by
  intro vals
  induction vals with
  | nil =>
    intro r r' hst h
    rw [List.foldlM_nil] at h
    cases h
    exact hst
  | cons v vs ih =>
    intro r r' hst h
    rw [List.foldlM_cons] at h
    have hl : (r.geneAt v).neighbour_left = none := by
      unfold TypingResult.geneAt
      rw [hst]
      exact (hgrs v).1
    have hr2 : (r.geneAt v).neighbour_right = none := by
      unfold TypingResult.geneAt
      rw [hst]
      exact (hgrs v).2
    rw [resolveNeighbours_id hl hr2 hNone] at h
    cases hstep : r.add_gene_result v with
    | error e =>
      rw [hstep] at h
      simp [Bind.bind, Except.bind] at h
    | ok r1 =>
      rw [hstep] at h
      simp only [Bind.bind, Except.bind] at h
      exact ih r1 r' ((add_gene_result_gene_store hl hstep).trans hst) h

/-- C2 amended: rehydration resolves each gene result's `piece` by looking up
its serialized key in the keyed map of constructed pieces (a missing key —
including the empty string — becomes `None`), but the serialized
`neighbour_left`/`neighbour_right` keys are ignored: every rehydrated gene
result has both neighbour pointers `None` (the resolution looks up
`repr(None)`), so re-serialization emits `''` for every neighbour key and
serialize → parse → serialize is not bit-identical whenever any neighbour key
is non-empty. -/
theorem from_dict_resolves_piece_but_drops_neighbours
    (d : TypingResultDict) (db : Database) (r : TypingResult)
    (hok : TypingResult.from_dict d db = .ok r) :
    (∀ j, (r.geneAt j).neighbour_left = none ∧ (r.geneAt j).neighbour_right = none) ∧
    r.gene_store.length = d.chain.length ∧
    (∀ k, k < d.chain.length →
      (r.geneAt k).piece = pyDictGet d.pieceKeyMap ((d.chain.getD k default).piece)) ∧
    (∀ gd ∈ r.serialize.chain, gd.neighbour_left = "" ∧ gd.neighbour_right = "") := by
  unfold TypingResult.from_dict at hok
  cases hbm : pyDictGet db.loci d.best_match with
  | none =>
    rw [hbm] at hok
    simp at hok
  | some best =>
    rw [hbm] at hok
    cases hgrs : d.chain.mapM (GeneResult.from_dict db d.pieceKeyMap) with
    | error e =>
      rw [hgrs] at hok
      simp [Bind.bind, Except.bind] at hok
    | ok grs =>
      rw [hgrs] at hok
      simp only [Bind.bind, Except.bind] at hok
      obtain ⟨hlen, hpt⟩ :=
        mapM_ok_pointwise (GeneResult.from_dict db d.pieceKeyMap) d.chain grs hgrs
      have hfields := fun k hk => geneResult_from_dict_fields (hpt k hk)
      have hgrs_none : ∀ j, (grs.getD j default).neighbour_left = none ∧
          (grs.getD j default).neighbour_right = none := by
        intro j
        by_cases hj : j < d.chain.length
        · exact ⟨(hfields j hj).2.1, (hfields j hj).2.2⟩
        · rw [List.getD_eq_default _ _ (by omega : grs.length ≤ j)]
          exact ⟨rfl, rfl⟩
      have hstore : r.gene_store = grs :=
        from_dict_fold_gene_store grs hgrs_none _ (geneMap_get_none grs) _ _ _ rfl hok
      have hnone : ∀ j, (r.geneAt j).neighbour_left = none ∧
          (r.geneAt j).neighbour_right = none := by
        intro j
        unfold TypingResult.geneAt
        rw [hstore]
        exact hgrs_none j
      have hser : ∀ i, (r.geneToDict i).neighbour_left = "" ∧
          (r.geneToDict i).neighbour_right = "" := by
        intro i
        simp only [TypingResult.geneToDict]
        rw [(hnone i).1, (hnone i).2]
        exact ⟨rfl, rfl⟩
      refine ⟨hnone, ?_, ?_, ?_⟩
      · rw [hstore]
        exact hlen
      · intro k hk
        unfold TypingResult.geneAt
        rw [hstore]
        exact (hfields k hk).1
      · intro gd hgd
        simp only [TypingResult.serialize, TypingResultDict.chain, List.mem_append,
          List.mem_map] at hgd
        rcases hgd with ((((⟨i, -, rfl⟩ | ⟨i, -, rfl⟩) | ⟨i, -, rfl⟩) | ⟨i, -, rfl⟩) |
          ⟨i, -, rfl⟩) <;> exact hser i

instance : Inhabited TypingResult :=
  ⟨⟨"", default, [], [], [], [], [], [], [], [], [], none, none, none, none, none⟩⟩

/-- A serialized gene result whose right neighbour key is set. -/
def gdA : GeneResultDict :=
  { id := "ctg", start := 0, end_ := 10, strand := "+", dna_seq := "", protein_seq := "",
    partialFlag := false, below_threshold := false, phenotype := "present",
    gene_type := "expected_genes", percent_identity := 90, percent_coverage := 100,
    gene := "L1_1", piece := "ctg:0-100+", neighbour_left := "",
    neighbour_right := "L1_2 ctg:10-20+" }

/-- A serialized gene result whose left neighbour key is set. -/
def gdB : GeneResultDict :=
  { id := "ctg", start := 10, end_ := 20, strand := "+", dna_seq := "", protein_seq := "",
    partialFlag := false, below_threshold := false, phenotype := "present",
    gene_type := "expected_genes", percent_identity := 90, percent_coverage := 100,
    gene := "L1_2", piece := "ctg:0-100+", neighbour_left := "L1_1 ctg:0-10+",
    neighbour_right := "" }

/-- A two-gene database for the round-trip example. -/
def demoDb : Database :=
  let geneA : Gene := { name := "L1_1", strand := "+", length := 10 }
  let geneB : Gene := { name := "L1_2", strand := "+", length := 10 }
  let locus : Locus :=
    { name := "L1", genes := [("L1_1", geneA), ("L1_2", geneB)], phenotypes := [],
      type_label := "L1" }
  { loci := [("L1", locus)], genes := [("L1_1", geneA), ("L1_2", geneB)], extra_genes := [] }

/-- A serialized typing result with one piece and two neighbouring expected
gene results. -/
def demoDict : TypingResultDict :=
  { sample_name := "s", best_match := "L1", confidence := "Typeable", phenotype := "L1",
    problems := "", percent_identity := 95, percent_coverage := 100, missing_genes := [],
    pieces := [{ id := "ctg", start := 0, end_ := 100, strand := "+", sequence_ := "ACGT" }],
    expected_genes_inside_locus := [gdA, gdB], expected_genes_outside_locus := [],
    unexpected_genes_inside_locus := [], unexpected_genes_outside_locus := [],
    extra_genes := [] }

/-- [demoDict] with both neighbour keys blanked. -/
def demoDictErased : TypingResultDict :=
  { demoDict with
    expected_genes_inside_locus :=
      [{ gdA with neighbour_right := "" }, { gdB with neighbour_left := "" }] }

/-- C2 counterexample: on a concrete serialized result with neighbour keys
set, serialize ∘ parse blanks both neighbour keys (and keeps every other
field), so serialize → parse → serialize is not bit-identical. -/
theorem roundtrip_not_bit_identical_counterexample :
    (TypingResult.from_dict demoDict demoDb).map TypingResult.serialize =
      .ok demoDictErased ∧ demoDictErased ≠ demoDict := by
  constructor
  · rfl
  · intro h
    have hc := congrArg
      (fun x => (x.expected_genes_inside_locus.getD 0 default).neighbour_right) h
    exact absurd hc (by decide)

/-- The rehydrated form of [demoDict]. -/
def demoParsed : TypingResult :=
  (TypingResult.from_dict demoDict demoDb).toOption.getD default

/-- Witness for [from_dict_resolves_piece_but_drops_neighbours] at the
concrete serialized result. -/
theorem from_dict_resolves_piece_witness :
    (demoParsed.geneAt 1).neighbour_left = none ∧
    (demoParsed.geneAt 1).piece =
      pyDictGet demoDict.pieceKeyMap ((demoDict.chain.getD 1 default).piece) := by
  have h := from_dict_resolves_piece_but_drops_neighbours demoDict demoDb demoParsed rfl
  exact ⟨(h.1 1).1, h.2.2.1 1 (by decide)⟩

end Kaptive
